/-
Verification of the event-caching core of the smarthome orb module
(orb_sky.py) against its natural-language specification.

Modelling conventions (shallow embedding):
  * Timestamps are integers counting UTC minutes (the code adds minute
    offsets via relativedelta(minutes=moff) and day windows via
    timedelta(days=n), i.e. n * 1440 minutes).
  * The external skyfield almanac is the "Ephemeris Oracle"; it is modelled
    as a structure of functions from a query window (and degree offset for
    risings/settings) to the list of event timestamps it reports.
  * The mutable Orb object is modelled as an explicit state record
    `OrbState`; every method returns the result (an `Except`, since the
    Python code can raise) together with the post-state.  Mutations that
    happen before a raise are visible in the returned state, as in Python.
  * Python's `bisect.bisect_right` and the hand-written two-pointer merge
    loop are modelled by structurally recursive functions; the `fuel`
    argument is the standard compilation of the while-loop, bounded by the
    number of loop iterations (`hi - lo` for the bisection, the sum of the
    list lengths for the merge), so the definitions reduce by `rfl`.
-/
import Mathlib

/-- Python's `round` built-in on an exact rational value: round half to even
(banker's rounding), as used by `Orb._phase` and `Orb._light`.  `Rat.floor`
is the computable floor on ℚ (it agrees with `Int.floor` by
`Rat.floor_def'`). -/
def pythonRound (x : ℚ) : ℤ :=
  let n := x.floor
  let r := x - n
  if r < 1/2 then n
  else if 1/2 < r then n + 1
  else if n % 2 = 0 then n else n + 1

/-- Loop of CPython's `bisect.bisect_right(a, x)`:
`while lo < hi: mid = (lo+hi)//2; if x < a[mid]: hi = mid else: lo = mid+1`.
`fuel ≥ hi - lo` guarantees the loop runs to completion. -/
def bisectRightAux (a : List ℤ) (x : ℤ) : ℕ → ℕ → ℕ → ℕ
  | 0, lo, _hi => lo
  | fuel + 1, lo, hi =>
    if lo < hi then
      let mid := (lo + hi) / 2
      if x < a.getD mid 0 then bisectRightAux a x fuel lo mid
      else bisectRightAux a x fuel (mid + 1) hi
    else lo

/-- `bisect.bisect_right(a, x)` with `lo = 0`, `hi = len(a)`. Each iteration
strictly shrinks `hi - lo`, so `a.length` units of fuel always suffice. -/
def bisectRight (a : List ℤ) (x : ℤ) : ℕ :=
  bisectRightAux a x a.length 0 a.length

/-- `_find_next_datetime(sorted_datetimes, target)` from orb_sky.py:
`index = bisect.bisect_right(sorted_datetimes, target)`; return
`sorted_datetimes[index]` if `index < len(sorted_datetimes)` else `None`. -/
def findNextDatetime (sortedDatetimes : List ℤ) (target : ℤ) : Option ℤ :=
  let index := bisectRight sortedDatetimes target
  if h : index < sortedDatetimes.length then
    some (sortedDatetimes.get ⟨index, h⟩)
  else
    none

/-- Body of `merge_sorted_datetimes`: the two-pointer while-loop
(`if list1[i] <= list2[j]` append from list1 else from list2) followed by
extending with the remainder of both lists.  The `fuel = 0` case returns the
loop-exit value `merged ++ list1[i:] ++ list2[j:]` seen from the front; with
`fuel ≥ |l₁| + |l₂|` it is never reached. -/
def mergeAux : ℕ → List ℤ → List ℤ → List ℤ
  | 0, l1, l2 => l1 ++ l2
  | _ + 1, [], l2 => l2
  | _ + 1, x :: xs, [] => x :: xs
  | fuel + 1, x :: xs, y :: ys =>
    if x ≤ y then x :: mergeAux fuel xs (y :: ys)
    else y :: mergeAux fuel (x :: xs) ys

/-- `merge_sorted_datetimes(list1, list2)` from orb_sky.py. -/
def mergeSortedDatetimes (list1 list2 : List ℤ) : List ℤ :=
  mergeAux (list1.length + list2.length) list1 list2

/-- The external Ephemeris Oracle (skyfield's almanac functions, partially
applied to the fixed observer and body): each field maps a query window
(start, end, and degree offset for risings/settings) to the reported
ordered event timestamps.  Risings and settings also carry the
did-actually-cross flag that `find_risings`/`find_settings` return. -/
structure Oracle where
  findTransits : ℤ → ℤ → List ℤ
  findAntitransits : ℤ → ℤ → List ℤ
  findRisings : ℤ → ℤ → ℚ → List (ℤ × Bool)
  findSettings : ℤ → ℤ → ℚ → List (ℤ × Bool)

/-- The mutable state of one `Orb` instance: the four caches, the two cache
configuration attributes set in `__init__`, and the `phase`/`light`
attributes that `get_observer_and_orb` injects only for the moon. -/
structure OrbState where
  orbName : String
  riseCache : ℚ → Option (List ℤ)
  setCache : ℚ → Option (List ℤ)
  noonCache : List ℤ
  midnightCache : List ℤ
  maxCacheSize : ℕ
  cachePrefillHorizon : ℕ
  phaseExposed : Bool
  lightExposed : Bool

namespace Orb

/-- `Orb.get_observer_and_orb`'s side effect: when the body is the moon it
assigns the `phase` and `light` attributes onto the instance.  The returned
(observer, orb) pair itself carries no state and is omitted. -/
def getObserverAndOrb (s : OrbState) : OrbState :=
  if s.orbName = "moon" then { s with phaseExposed := true, lightExposed := true }
  else s

/-- The cache-related state set up by `Orb.__init__`: empty rise/set cache
dictionaries, empty noon/midnight cache lists, `max_cache_size = 2000` and
`cache_prefill_horizon = 365`. -/
def initState (orbName : String) : OrbState :=
  { orbName := orbName
    riseCache := fun _ => none
    setCache := fun _ => none
    noonCache := []
    midnightCache := []
    maxCacheSize := 2000
    cachePrefillHorizon := 365
    phaseExposed := false
    lightExposed := false }

/-- `Orb.__init__(orb, lon, lat, elev)`: stores the location and caches, then
resolves `self.planets[orb]` in the external ephemeris.  The constructor
performs no validation of its own on the body name; the only failure is the
external lookup's KeyError when the name is absent from the loaded
ephemeris file.  `planetsLookup` models that external `planets[...]`
indexing. -/
def init (planetsLookup : String → Option Unit) (orbName : String) :
    Except String OrbState :=
  match planetsLookup orbName with
  | none => .error "KeyError"
  | some _ => .ok (initState orbName)

/-- `Orb.noon_cached(moff, dt)` with `dt` already resolved to the UTC minute
`t` (the code's `date_utc`).  Mirrors the source line by line: prefill when
the cache list is empty, full reset when its length exceeds
`max_cache_size`, upper-bound lookup, and on a miss a refetch merged into
the cache followed by the emptiness check that raises. -/
def noonCached (O : Oracle) (s : OrbState) (moff t : ℤ) :
    Except String ℤ × OrbState :=
  let s := getObserverAndOrb s
  let endT := t + 1440 * (s.cachePrefillHorizon : ℤ)
  let s := if s.noonCache.isEmpty then
      { s with noonCache := O.findTransits t endT } else s
  let s := if s.noonCache.length > s.maxCacheSize then
      { s with noonCache := [] } else s
  match findNextDatetime s.noonCache t with
  | some nextTransit => (.ok (nextTransit + moff), s)
  | none =>
    let newTimes := O.findTransits t endT
    let s := { s with noonCache := mergeSortedDatetimes s.noonCache newTimes }
    match newTimes with
    | [] => (.error "No transit found.", s)
    | t0 :: _ => (.ok (t0 + moff), s)

/-- `Orb.midnight_cached(moff, dt)`: identical to `noon_cached` with the
antitransit search (`almanac._find` with hour angle π) in place of
`find_transits`. -/
def midnightCached (O : Oracle) (s : OrbState) (moff t : ℤ) :
    Except String ℤ × OrbState :=
  let s := getObserverAndOrb s
  let endT := t + 1440 * (s.cachePrefillHorizon : ℤ)
  let s := if s.midnightCache.isEmpty then
      { s with midnightCache := O.findAntitransits t endT } else s
  let s := if s.midnightCache.length > s.maxCacheSize then
      { s with midnightCache := [] } else s
  match findNextDatetime s.midnightCache t with
  | some nextAntitransit => (.ok (nextAntitransit + moff), s)
  | none =>
    let newTimes := O.findAntitransits t endT
    let s := { s with midnightCache := mergeSortedDatetimes s.midnightCache newTimes }
    match newTimes with
    | [] => (.error "No antitransit found.", s)
    | t0 :: _ => (.ok (t0 + moff), s)

/-- `Orb.rise_cached(doff, moff, center, dt)`: per-degree-offset dictionary
entry, prefilled on a missing key, reset on overflow, then the same
lookup / refetch-merge logic as `noon_cached`.  Only the timestamps of
`find_risings` are cached (`[time.utc_datetime() for time in times]`). -/
def riseCached (O : Oracle) (s : OrbState) (doff : ℚ) (moff t : ℤ) :
    Except String ℤ × OrbState :=
  let s := getObserverAndOrb s
  let endT := t + 1440 * (s.cachePrefillHorizon : ℤ)
  let s := if (s.riseCache doff).isNone then
      { s with riseCache := fun d =>
          if d = doff then some ((O.findRisings t endT doff).map Prod.fst)
          else s.riseCache d } else s
  let s := if ((s.riseCache doff).getD []).length > s.maxCacheSize then
      { s with riseCache := fun d =>
          if d = doff then some [] else s.riseCache d } else s
  match findNextDatetime ((s.riseCache doff).getD []) t with
  | some nextRise => (.ok (nextRise + moff), s)
  | none =>
    let newTimes := (O.findRisings t endT doff).map Prod.fst
    let merged := mergeSortedDatetimes ((s.riseCache doff).getD []) newTimes
    let s := { s with riseCache := fun d =>
        if d = doff then some merged else s.riseCache d }
    match newTimes with
    | [] => (.error "No rise found.", s)
    | t0 :: _ => (.ok (t0 + moff), s)

/-- `Orb.set_cached(doff, moff, center, dt)`: symmetric to `rise_cached`
with `find_settings` (the source reads the entry via
`self.set_cache.get(doff, [])`, which the `getD []` mirrors). -/
def setCached (O : Oracle) (s : OrbState) (doff : ℚ) (moff t : ℤ) :
    Except String ℤ × OrbState :=
  let s := getObserverAndOrb s
  let endT := t + 1440 * (s.cachePrefillHorizon : ℤ)
  let s := if (s.setCache doff).isNone then
      { s with setCache := fun d =>
          if d = doff then some ((O.findSettings t endT doff).map Prod.fst)
          else s.setCache d } else s
  let s := if ((s.setCache doff).getD []).length > s.maxCacheSize then
      { s with setCache := fun d =>
          if d = doff then some [] else s.setCache d } else s
  match findNextDatetime ((s.setCache doff).getD []) t with
  | some nextSet => (.ok (nextSet + moff), s)
  | none =>
    let newTimes := (O.findSettings t endT doff).map Prod.fst
    let merged := mergeSortedDatetimes ((s.setCache doff).getD []) newTimes
    let s := { s with setCache := fun d =>
        if d = doff then some merged else s.setCache d }
    match newTimes with
    | [] => (.error "No set found.", s)
    | t0 :: _ => (.ok (t0 + moff), s)

/-- `Orb.noon(moff, dt)` (uncached): one `find_transits` query over the
fixed two-day window `[t, t + 2*1440]`, first result plus the minute
offset, ValueError when the window is empty.  No cache is touched. -/
def noon (O : Oracle) (s : OrbState) (moff t : ℤ) :
    Except String ℤ × OrbState :=
  let s := getObserverAndOrb s
  match O.findTransits t (t + 2 * 1440) with
  | [] => (.error "No transit found.", s)
  | t0 :: _ => (.ok (t0 + moff), s)

/-- `Orb.midnight(moff, dt)` (uncached): antitransit search over the fixed
two-day window. -/
def midnight (O : Oracle) (s : OrbState) (moff t : ℤ) :
    Except String ℤ × OrbState :=
  let s := getObserverAndOrb s
  match O.findAntitransits t (t + 2 * 1440) with
  | [] => (.error "No antitransit found.", s)
  | t0 :: _ => (.ok (t0 + moff), s)

/-- `Orb.rise(doff, moff, center, dt)` (uncached): `find_risings` over
`[t, t + 2*1440]`; the loop takes the first returned (time, flag) pair
regardless of the flag (a false flag is only logged) and breaks; raises
only when the oracle returned nothing at all. -/
def rise (O : Oracle) (s : OrbState) (doff : ℚ) (moff t : ℤ) :
    Except String ℤ × OrbState :=
  let s := getObserverAndOrb s
  match O.findRisings t (t + 2 * 1440) doff with
  | [] => (.error "No rise found.", s)
  | (t0, _) :: _ => (.ok (t0 + moff), s)

/-- `Orb.set(doff, moff, center, dt)` (uncached): symmetric to `rise`. -/
def set (O : Oracle) (s : OrbState) (doff : ℚ) (moff t : ℤ) :
    Except String ℤ × OrbState :=
  let s := getObserverAndOrb s
  match O.findSettings t (t + 2 * 1440) doff with
  | [] => (.error "No set found.", s)
  | (t0, _) :: _ => (.ok (t0 + moff), s)

end Orb

/-- The arithmetic of `Orb._phase`: `int(round(phase_angle / 360 * 8))`
applied to the Sun-Moon phase angle in degrees reported by
`almanac.moon_phase` (Python's `round` on an int-valued call is the
identity, so `int(...)` adds nothing). -/
def phaseCalc (phaseAngleDeg : ℚ) : ℤ :=
  pythonRound (phaseAngleDeg / 360 * 8)

namespace Orb

/-- Invoking `orb.phase(...)`: the attribute exists only after
`get_observer_and_orb` has injected it on a moon instance; on any instance
where it was never injected the attribute access raises AttributeError.
The phase angle at the query instant is supplied by the external oracle. -/
def callPhase (s : OrbState) (phaseAngleDeg : ℚ) : Except String ℤ :=
  if s.phaseExposed then .ok (phaseCalc phaseAngleDeg)
  else .error "AttributeError"

/-- Invoking `orb.light(...)`: same attribute-injection gate as `phase`.
The illuminated-fraction arithmetic involves a real cosine computed by the
external oracle side, so the resulting integer is passed in opaque. -/
def callLight (s : OrbState) (lightValue : ℤ) : Except String ℤ :=
  if s.lightExposed then .ok lightValue
  else .error "AttributeError"

end Orb

/-- One facade operation issued against an Orb instance, used to describe
reachable states: the four cached queries and the four uncached ones
(`dt` already resolved to a UTC minute). -/
inductive Query where
  | noonQ (moff t : ℤ)
  | midnightQ (moff t : ℤ)
  | riseQ (doff : ℚ) (moff t : ℤ)
  | setQ (doff : ℚ) (moff t : ℤ)
  | noonU (moff t : ℤ)
  | midnightU (moff t : ℤ)
  | riseU (doff : ℚ) (moff t : ℤ)
  | setU (doff : ℚ) (moff t : ℤ)

/-- State transition of one facade operation (the returned value or raised
error does not matter for reachability). -/
def runQuery (O : Oracle) (s : OrbState) (q : Query) : OrbState :=
  match q with
  | .noonQ m t => (Orb.noonCached O s m t).2
  | .midnightQ m t => (Orb.midnightCached O s m t).2
  | .riseQ d m t => (Orb.riseCached O s d m t).2
  | .setQ d m t => (Orb.setCached O s d m t).2
  | .noonU m t => (Orb.noon O s m t).2
  | .midnightU m t => (Orb.midnight O s m t).2
  | .riseU d m t => (Orb.rise O s d m t).2
  | .setU d m t => (Orb.set O s d m t).2

/-- Run a whole query sequence from a state, left to right. -/
def runQueries (O : Oracle) (s : OrbState) (qs : List Query) : OrbState :=
  qs.foldl (runQuery O) s

/-- A catalog of body names resolved by a loaded ephemeris file in the style
of de421.bsp, which contains many bodies besides the sun and the moon
(planets and barycenters); used to exhibit constructions that the external
`planets[...]` lookup accepts although the body is neither sun nor moon. -/
def de421Lookup : String → Option Unit := fun name =>
  if name = "sun" ∨ name = "mercury" ∨ name = "venus" ∨ name = "earth" ∨
     name = "moon" ∨ name = "mars" then some () else none

/-- A small concrete oracle used to exercise the uncached facade operations:
one transit seven minutes after the window start, one rising (with a true
crossing flag) nine minutes after, no antitransits and no settings. -/
def uncachedDemoOracle : Oracle :=
  { findTransits := fun t0 _ => [t0 + 7]
    findAntitransits := fun _ _ => []
    findRisings := fun t0 _ _ => [(t0 + 9, true)]
    findSettings := fun _ _ _ => [] }

/-- Proof-side abbreviation: the noon cache list that `noon_cached` actually
performs its lookup on, after the prefill-when-empty and the
reset-on-overflow stages. -/
def noonLookupList (O : Oracle) (s : OrbState) (t : ℤ) : List ℤ :=
  let c0 := if s.noonCache.isEmpty then
      O.findTransits t (t + 1440 * (s.cachePrefillHorizon : ℤ))
    else s.noonCache
  if c0.length > s.maxCacheSize then [] else c0

/-- Proof-side abbreviation: the midnight cache list that `midnight_cached`
performs its lookup on. -/
def midnightLookupList (O : Oracle) (s : OrbState) (t : ℤ) : List ℤ :=
  let c0 := if s.midnightCache.isEmpty then
      O.findAntitransits t (t + 1440 * (s.cachePrefillHorizon : ℤ))
    else s.midnightCache
  if c0.length > s.maxCacheSize then [] else c0

/-- Proof-side abbreviation: the rise cache entry for degree offset `d` that
`rise_cached` performs its lookup on, after the prefill-when-missing and the
reset-on-overflow stages. -/
def riseEntryList (O : Oracle) (s : OrbState) (d : ℚ) (t : ℤ) : List ℤ :=
  let e0 := if (s.riseCache d).isNone then
      (O.findRisings t (t + 1440 * (s.cachePrefillHorizon : ℤ)) d).map Prod.fst
    else (s.riseCache d).getD []
  if e0.length > s.maxCacheSize then [] else e0

/-- Proof-side abbreviation: the set cache entry for degree offset `d` that
`set_cached` performs its lookup on. -/
def setEntryList (O : Oracle) (s : OrbState) (d : ℚ) (t : ℤ) : List ℤ :=
  let e0 := if (s.setCache d).isNone then
      (O.findSettings t (t + 1440 * (s.cachePrefillHorizon : ℤ)) d).map Prod.fst
    else (s.setCache d).getD []
  if e0.length > s.maxCacheSize then [] else e0

/-- The order invariant of the cache store: every stored series (noon,
midnight, and each rise/set dictionary entry) is sorted in non-decreasing
order. -/
def CachesSorted (s : OrbState) : Prop :=
  s.noonCache.Sorted (· ≤ ·) ∧ s.midnightCache.Sorted (· ≤ ·) ∧
  (∀ d l, s.riseCache d = some l → l.Sorted (· ≤ ·)) ∧
  (∀ d l, s.setCache d = some l → l.Sorted (· ≤ ·))

/-- An oracle that reports one transit exactly at the window start of every
query: each individual reply is strictly increasing (a singleton) and lies
inside the requested window, yet two windows starting at the same instant
report the same timestamp twice. -/
def dupOracle : Oracle :=
  { findTransits := fun t0 _ => [t0]
    findAntitransits := fun _ _ => []
    findRisings := fun _ _ _ => []
    findSettings := fun _ _ _ => [] }

/-- An oracle in the realistic shape of a year of daily transits: every
fetch of a window starting at `t0` reports 365 strictly increasing
timestamps, one per day, all within `[t0, t0 + 365 days]`. -/
def yearOracle : Oracle :=
  { findTransits := fun t0 _ => (List.range 365).map
      (fun (i : ℕ) => t0 + 1440 * ((i : ℤ) + 1))
    findAntitransits := fun _ _ => []
    findRisings := fun _ _ _ => []
    findSettings := fun _ _ _ => [] }

/-- Six `noon_cached` queries one year apart: each query after the first
falls exactly at the end of the cached horizon, so each one merges another
365 transits into `noon_cache`, driving its length to 2190 > 2000. -/
def overflowQueries : List Query :=
  (List.range 6).map (fun (j : ℕ) => Query.noonQ 0 (525600 * (j : ℤ)))

/-- The Orb state reached from a fresh sun instance after the first `n` of
the year-apart `noon_cached` queries. -/
def overflowRunState (n : ℕ) : OrbState :=
  runQueries yearOracle (Orb.initState "sun")
    ((List.range n).map (fun (j : ℕ) => Query.noonQ 0 (525600 * (j : ℤ))))

/-- A state whose caches already violate the size bound: two noon
timestamps against a `max_cache_size` of 1 (the Python attribute is plain
instance data, so states of this shape arise as soon as a merge pushes an
entry past the bound). -/
def overflowState : OrbState :=
  { orbName := "sun"
    riseCache := fun _ => some [-5, -4]
    setCache := fun _ => none
    noonCache := [-3, -2]
    midnightCache := []
    maxCacheSize := 1
    cachePrefillHorizon := 0
    phaseExposed := false
    lightExposed := false }

/-- A state whose rise entry for offset 0 is stale (all timestamps in the
past) and over the size bound: exhibits that the refetch path discards
rather than merges an overflowing entry. -/
def staleOverflowState : OrbState :=
  { orbName := "sun"
    riseCache := fun _ => some [-5, -4]
    setCache := fun _ => none
    noonCache := []
    midnightCache := []
    maxCacheSize := 1
    cachePrefillHorizon := 1
    phaseExposed := false
    lightExposed := false }

/-- A state whose rise entry and noon cache are stale but within the size
bound, so a query takes the plain refetch-and-merge path. -/
def staleKeptState : OrbState :=
  { orbName := "sun"
    riseCache := fun _ => some [-5, -4]
    setCache := fun _ => none
    noonCache := [-7, -6]
    midnightCache := []
    maxCacheSize := 2000
    cachePrefillHorizon := 365
    phaseExposed := false
    lightExposed := false }

/-- A state whose entries all hold future timestamps within the size bound,
so every cached query at time 0 is a pure hit. -/
def liveState : OrbState :=
  { orbName := "sun"
    riseCache := fun _ => some [5, 8]
    setCache := fun _ => some [6]
    noonCache := [4, 9]
    midnightCache := [3]
    maxCacheSize := 2000
    cachePrefillHorizon := 365
    phaseExposed := false
    lightExposed := false }

/-- A fresh-cache state with a zero-day prefill horizon, used to drive the
cached-query monotonicity theorem on concrete inputs. -/
def monoState : OrbState :=
  { orbName := "sun"
    riseCache := fun _ => none
    setCache := fun _ => none
    noonCache := []
    midnightCache := []
    maxCacheSize := 2000
    cachePrefillHorizon := 0
    phaseExposed := false
    lightExposed := false }

/-- An oracle reporting one transit at the end of every query window (for a
zero-width window, exactly at the query instant). -/
def monoOracle : Oracle :=
  { findTransits := fun _ t1 => [t1]
    findAntitransits := fun _ _ => []
    findRisings := fun _ _ _ => []
    findSettings := fun _ _ _ => [] }

/-- The state after the first monotonicity query. -/
def monoState1 : OrbState := (Orb.noonCached monoOracle monoState 0 10).2

/-- The state after the second monotonicity query. -/
def monoState2 : OrbState := (Orb.noonCached monoOracle monoState1 0 12).2

/-! ### Basic facts about the modelled helpers -/

theorem goo_noonCache (s : OrbState) :
    (Orb.getObserverAndOrb s).noonCache = s.noonCache := by
  unfold Orb.getObserverAndOrb; split <;> rfl

theorem goo_midnightCache (s : OrbState) :
    (Orb.getObserverAndOrb s).midnightCache = s.midnightCache := by
  unfold Orb.getObserverAndOrb; split <;> rfl

theorem goo_riseCache (s : OrbState) :
    (Orb.getObserverAndOrb s).riseCache = s.riseCache := by
  unfold Orb.getObserverAndOrb; split <;> rfl

theorem goo_setCache (s : OrbState) :
    (Orb.getObserverAndOrb s).setCache = s.setCache := by
  unfold Orb.getObserverAndOrb; split <;> rfl

theorem goo_maxCacheSize (s : OrbState) :
    (Orb.getObserverAndOrb s).maxCacheSize = s.maxCacheSize := by
  unfold Orb.getObserverAndOrb; split <;> rfl

theorem goo_cachePrefillHorizon (s : OrbState) :
    (Orb.getObserverAndOrb s).cachePrefillHorizon = s.cachePrefillHorizon := by
  unfold Orb.getObserverAndOrb; split <;> rfl

theorem goo_orbName (s : OrbState) :
    (Orb.getObserverAndOrb s).orbName = s.orbName := by
  unfold Orb.getObserverAndOrb; split <;> rfl

theorem mergeAux_nil_left (fuel : ℕ) (l : List ℤ) : mergeAux fuel [] l = l := by
  cases fuel <;> simp [mergeAux]

theorem mergeAux_nil_right (fuel : ℕ) (l : List ℤ) : mergeAux fuel l [] = l := by
  cases fuel <;> cases l <;> simp [mergeAux]

theorem mergeAux_mem (fuel : ℕ) (l1 l2 : List ℤ) (x : ℤ) :
    x ∈ mergeAux fuel l1 l2 ↔ x ∈ l1 ∨ x ∈ l2 := by
  induction fuel generalizing l1 l2 with
  | zero => simp [mergeAux]
  | succ n ih =>
    match l1, l2 with
    | [], l2 => simp [mergeAux]
    | a :: as, [] => simp [mergeAux]
    | a :: as, b :: bs =>
      simp only [mergeAux]
      split
      · simp [ih, List.mem_cons]; tauto
      · simp [ih, List.mem_cons]; tauto

theorem mergeAux_length (fuel : ℕ) (l1 l2 : List ℤ) :
    (mergeAux fuel l1 l2).length = l1.length + l2.length := by
  induction fuel generalizing l1 l2 with
  | zero => simp [mergeAux]
  | succ n ih =>
    match l1, l2 with
    | [], l2 => simp [mergeAux]
    | a :: as, [] => simp [mergeAux]
    | a :: as, b :: bs =>
      simp only [mergeAux]
      split <;> simp [ih] <;> omega

theorem mergeAux_sorted (fuel : ℕ) (l1 l2 : List ℤ)
    (hf : l1.length + l2.length ≤ fuel)
    (h1 : l1.Sorted (· ≤ ·)) (h2 : l2.Sorted (· ≤ ·)) :
    (mergeAux fuel l1 l2).Sorted (· ≤ ·) := by
  induction fuel generalizing l1 l2 with
  | zero =>
    have : l1 = [] ∧ l2 = [] := by
      cases l1 <;> cases l2 <;> simp_all
    rcases this with ⟨rfl, rfl⟩
    simp [mergeAux]
  | succ n ih =>
    match l1, l2 with
    | [], l2 => simpa [mergeAux] using h2
    | a :: as, [] => simpa [mergeAux] using h1
    | a :: as, b :: bs =>
      rw [List.sorted_cons] at h1 h2
      simp only [mergeAux]
      split
      · rename_i hab
        rw [List.sorted_cons]
        refine ⟨?_, ih as (b :: bs) (by simp at hf ⊢; omega)
          h1.2 (List.sorted_cons.mpr h2)⟩
        intro c hc
        rcases (mergeAux_mem _ _ _ _).mp hc with h | h
        · exact h1.1 c h
        · rcases List.mem_cons.mp h with rfl | h
          · exact hab
          · exact le_trans hab (h2.1 c h)
      · rename_i hab
        push_neg at hab
        rw [List.sorted_cons]
        refine ⟨?_, ih (a :: as) bs (by simp at hf ⊢; omega)
          (List.sorted_cons.mpr h1) h2.2⟩
        intro c hc
        rcases (mergeAux_mem _ _ _ _).mp hc with h | h
        · rcases List.mem_cons.mp h with rfl | h
          · exact le_of_lt hab
          · exact le_trans (le_of_lt hab) (h1.1 c h)
        · exact h2.1 c h

theorem mergeAux_sorted_strict (fuel : ℕ) (l1 l2 : List ℤ)
    (hf : l1.length + l2.length ≤ fuel)
    (h1 : l1.Sorted (· < ·)) (h2 : l2.Sorted (· < ·))
    (hdis : ∀ x, x ∈ l1 → x ∉ l2) :
    (mergeAux fuel l1 l2).Sorted (· < ·) := by
  induction fuel generalizing l1 l2 with
  | zero =>
    have : l1 = [] ∧ l2 = [] := by
      cases l1 <;> cases l2 <;> simp_all
    rcases this with ⟨rfl, rfl⟩
    simp [mergeAux]
  | succ n ih =>
    match l1, l2 with
    | [], l2 => simpa [mergeAux] using h2
    | a :: as, [] => simpa [mergeAux] using h1
    | a :: as, b :: bs =>
      rw [List.sorted_cons] at h1 h2
      simp only [mergeAux]
      split
      · rename_i hab
        have hab' : a < b := lt_of_le_of_ne hab (by
          intro h; exact hdis a (List.mem_cons_self a as) (h ▸ List.mem_cons_self b bs))
        rw [List.sorted_cons]
        refine ⟨?_, ih as (b :: bs) (by simp at hf ⊢; omega) h1.2
          (List.sorted_cons.mpr h2)
          (fun x hx => hdis x (List.mem_cons_of_mem a hx))⟩
        intro c hc
        rcases (mergeAux_mem _ _ _ _).mp hc with h | h
        · exact h1.1 c h
        · rcases List.mem_cons.mp h with rfl | h
          · exact hab'
          · exact lt_trans hab' (h2.1 c h)
      · rename_i hab
        push_neg at hab
        rw [List.sorted_cons]
        refine ⟨?_, ih (a :: as) bs (by simp at hf ⊢; omega)
          (List.sorted_cons.mpr h1) h2.2
          (fun x hx hx2 => hdis x hx (List.mem_cons_of_mem b hx2))⟩
        intro c hc
        rcases (mergeAux_mem _ _ _ _).mp hc with h | h
        · rcases List.mem_cons.mp h with rfl | h
          · exact hab
          · exact lt_trans hab (h1.1 c h)
        · exact h2.1 c h

theorem merge_mem (l1 l2 : List ℤ) (x : ℤ) :
    x ∈ mergeSortedDatetimes l1 l2 ↔ x ∈ l1 ∨ x ∈ l2 :=
  mergeAux_mem _ l1 l2 x

theorem merge_length (l1 l2 : List ℤ) :
    (mergeSortedDatetimes l1 l2).length = l1.length + l2.length :=
  mergeAux_length _ l1 l2

theorem merge_nil_left (l : List ℤ) : mergeSortedDatetimes [] l = l :=
  mergeAux_nil_left _ l

theorem merge_sorted (l1 l2 : List ℤ)
    (h1 : l1.Sorted (· ≤ ·)) (h2 : l2.Sorted (· ≤ ·)) :
    (mergeSortedDatetimes l1 l2).Sorted (· ≤ ·) :=
  mergeAux_sorted _ l1 l2 le_rfl h1 h2

theorem merge_sorted_strict (l1 l2 : List ℤ)
    (h1 : l1.Sorted (· < ·)) (h2 : l2.Sorted (· < ·))
    (hdis : ∀ x, x ∈ l1 → x ∉ l2) :
    (mergeSortedDatetimes l1 l2).Sorted (· < ·) :=
  mergeAux_sorted_strict _ l1 l2 le_rfl h1 h2 hdis

theorem sorted_getD_le (l : List ℤ) (hs : l.Sorted (· ≤ ·)) (i j : ℕ)
    (hij : i ≤ j) (hj : j < l.length) : l.getD i 0 ≤ l.getD j 0 := by
  rcases eq_or_lt_of_le hij with rfl | hlt
  · exact le_rfl
  · rw [List.getD_eq_getElem l 0 (lt_trans hlt hj), List.getD_eq_getElem l 0 hj]
    exact (List.pairwise_iff_getElem.mp hs) i j (lt_trans hlt hj) hj hlt

theorem bisectRightAux_spec (a : List ℤ) (x : ℤ) (hs : a.Sorted (· ≤ ·)) :
    ∀ (fuel lo hi : ℕ), lo ≤ hi → hi ≤ a.length → hi - lo ≤ fuel →
    (∀ i, i < lo → a.getD i 0 ≤ x) →
    (∀ i, hi ≤ i → i < a.length → x < a.getD i 0) →
    lo ≤ bisectRightAux a x fuel lo hi ∧ bisectRightAux a x fuel lo hi ≤ hi ∧
    (∀ i, i < bisectRightAux a x fuel lo hi → a.getD i 0 ≤ x) ∧
    (∀ i, bisectRightAux a x fuel lo hi ≤ i → i < a.length → x < a.getD i 0)
  | 0, lo, hi, hlo, hhi, hfuel, plo, phi => by
    have : lo = hi := by omega
    subst this
    simp only [bisectRightAux]
    exact ⟨le_rfl, le_rfl, fun i h => plo i h, fun i h h' => phi i h h'⟩
  | fuel + 1, lo, hi, hlo, hhi, hfuel, plo, phi => by
    by_cases hlh : lo < hi
    · have hmidlo : lo ≤ (lo + hi) / 2 := by omega
      have hmidhi : (lo + hi) / 2 < hi := by omega
      by_cases hx : x < a.getD ((lo + hi) / 2) 0
      · have hrec := bisectRightAux_spec a x hs fuel lo ((lo + hi) / 2)
          hmidlo (le_trans (le_of_lt hmidhi) hhi) (by omega) plo
          (fun i hi1 hi2 =>
            lt_of_lt_of_le hx (sorted_getD_le a hs ((lo + hi) / 2) i hi1 hi2))
        simp only [bisectRightAux, if_pos hlh, if_pos hx]
        exact ⟨hrec.1, le_trans hrec.2.1 (le_of_lt hmidhi), hrec.2.2⟩
      · have hmx : a.getD ((lo + hi) / 2) 0 ≤ x := le_of_not_lt hx
        have hrec := bisectRightAux_spec a x hs fuel ((lo + hi) / 2 + 1) hi
          (by omega) hhi (by omega)
          (fun i hi1 => le_trans
            (sorted_getD_le a hs i ((lo + hi) / 2) (by omega)
              (lt_of_lt_of_le hmidhi hhi)) hmx)
          phi
        simp only [bisectRightAux, if_pos hlh, if_neg hx]
        exact ⟨le_trans (by omega) hrec.1, hrec.2.1, hrec.2.2⟩
    · have : lo = hi := by omega
      subst this
      simp only [bisectRightAux, if_neg hlh]
      exact ⟨le_rfl, le_rfl, fun i h => plo i h, fun i h h' => phi i h h'⟩

theorem bisectRight_spec (a : List ℤ) (x : ℤ) (hs : a.Sorted (· ≤ ·)) :
    bisectRight a x ≤ a.length ∧
    (∀ i, i < bisectRight a x → a.getD i 0 ≤ x) ∧
    (∀ i, bisectRight a x ≤ i → i < a.length → x < a.getD i 0) := by
  have h := bisectRightAux_spec a x hs a.length 0 a.length (Nat.zero_le _)
    le_rfl (by omega) (fun i h => absurd h (Nat.not_lt_zero i))
    (fun i h h' => absurd h' (not_lt_of_le h))
  exact ⟨h.2.1, h.2.2⟩

theorem bisectRightAux_all_le (a : List ℤ) (x : ℤ)
    (hall : ∀ i, i < a.length → a.getD i 0 ≤ x) :
    ∀ (fuel lo hi : ℕ), lo ≤ hi → hi ≤ a.length → hi - lo ≤ fuel →
    bisectRightAux a x fuel lo hi = hi
  | 0, lo, hi, hlo, hhi, hfuel => by
    have : lo = hi := by omega
    subst this
    rfl
  | fuel + 1, lo, hi, hlo, hhi, hfuel => by
    by_cases hlh : lo < hi
    · have hx : ¬ x < a.getD ((lo + hi) / 2) 0 :=
        not_lt_of_le (hall _ (by omega))
      simp only [bisectRightAux, if_pos hlh, if_neg hx]
      exact bisectRightAux_all_le a x hall fuel ((lo + hi) / 2 + 1) hi
        (by omega) hhi (by omega)
    · have : lo = hi := by omega
      subst this
      simp [bisectRightAux, hlh]

theorem findNext_none_of_all_le (l : List ℤ) (t : ℤ)
    (h : ∀ y ∈ l, y ≤ t) : findNextDatetime l t = none := by
  have hall : ∀ i, i < l.length → l.getD i 0 ≤ t := fun i hi => by
    rw [List.getD_eq_getElem l 0 hi]
    exact h _ (List.getElem_mem hi)
  have hb : bisectRight l t = l.length :=
    bisectRightAux_all_le l t hall l.length 0 l.length (Nat.zero_le _)
      le_rfl (by omega)
  simp [findNextDatetime, hb]

theorem findNext_none_iff (l : List ℤ) (t : ℤ) (hs : l.Sorted (· ≤ ·)) :
    findNextDatetime l t = none ↔ ∀ y ∈ l, y ≤ t := by
  constructor
  · intro hn y hy
    obtain ⟨i, hi, rfl⟩ := List.mem_iff_getElem.mp hy
    by_contra hgt
    push_neg at hgt
    have hspec := bisectRight_spec l t hs
    have hblen : ¬ bisectRight l t < l.length := by
      intro hlt
      simp [findNextDatetime, hlt] at hn
    have hb : bisectRight l t = l.length := by omega
    have := hspec.2.1 i (by omega)
    rw [List.getD_eq_getElem l 0 hi] at this
    omega
  · exact findNext_none_of_all_le l t

theorem findNext_some_spec (l : List ℤ) (t v : ℤ) (hs : l.Sorted (· ≤ ·))
    (hv : findNextDatetime l t = some v) :
    v ∈ l ∧ t < v ∧ ∀ y ∈ l, t < y → v ≤ y := by
  have hspec := bisectRight_spec l t hs
  by_cases hlt : bisectRight l t < l.length
  · simp only [findNextDatetime, dif_pos hlt] at hv
    obtain rfl : l.get ⟨bisectRight l t, hlt⟩ = v := Option.some_injective _ hv
    refine ⟨List.get_mem l _ hlt, ?_, ?_⟩
    · have := hspec.2.2 (bisectRight l t) le_rfl hlt
      rwa [List.getD_eq_getElem l 0 hlt] at this
    · intro y hy hty
      obtain ⟨j, hj, rfl⟩ := List.mem_iff_getElem.mp hy
      have hjr : bisectRight l t ≤ j := by
        by_contra hjlt
        push_neg at hjlt
        have := hspec.2.1 j hjlt
        rw [List.getD_eq_getElem l 0 hj] at this
        omega
      have := sorted_getD_le l hs (bisectRight l t) j hjr hj
      rw [List.getD_eq_getElem l 0 hj, List.getD_eq_getElem l 0 hlt] at this
      simpa using this
  · simp [findNextDatetime, hlt] at hv

theorem findNext_some_iff (l : List ℤ) (t v : ℤ) (hs : l.Sorted (· ≤ ·)) :
    findNextDatetime l t = some v ↔
      v ∈ l ∧ t < v ∧ ∀ y ∈ l, t < y → v ≤ y := by
  constructor
  · exact findNext_some_spec l t v hs
  · rintro ⟨hv, htv, hmin⟩
    cases hn : findNextDatetime l t with
    | none =>
      rw [findNext_none_iff l t hs] at hn
      exact absurd (hn v hv) (not_le_of_lt htv)
    | some w =>
      have hw := findNext_some_spec l t w hs hn
      have h1 : v ≤ w := hmin w hw.1 hw.2.1
      have h2 : w ≤ v := hw.2.2 v hv htv
      rw [le_antisymm h1 h2]

theorem ratFloor_eq (x : ℚ) : x.floor = Int.floor x := by
  rw [Rat.floor_def', ← Rat.floor_def]

theorem pythonRound_eq_floor (x : ℚ) (n : ℤ) (hn : Int.floor x = n)
    (hlt : x - n < 1/2) : pythonRound x = n := by
  unfold pythonRound
  rw [ratFloor_eq, hn, if_pos hlt]

theorem pythonRound_eq_floor_add_one (x : ℚ) (n : ℤ) (hn : Int.floor x = n)
    (hgt : 1/2 < x - n) : pythonRound x = n + 1 := by
  unfold pythonRound
  rw [ratFloor_eq, hn, if_neg (not_lt_of_lt hgt), if_pos hgt]

theorem pythonRound_bounds (x : ℚ) :
    Int.floor x ≤ pythonRound x ∧ pythonRound x ≤ Int.floor x + 1 := by
  simp only [pythonRound, ratFloor_eq]
  split_ifs <;> omega

/-- C8: on an ascending list, `_find_next_datetime` returns exactly the least
element strictly greater than the target, and returns `None` exactly when no
element is strictly greater than the target; hence a cache hit yields the
earliest cached timestamp strictly after the query time. -/
theorem C8_find_next_upper_bound (l : List ℤ) (t : ℤ)
    (hs : l.Sorted (· ≤ ·)) :
    (∀ v, findNextDatetime l t = some v ↔
      v ∈ l ∧ t < v ∧ ∀ y ∈ l, t < y → v ≤ y) ∧
    (findNextDatetime l t = none ↔ ∀ y ∈ l, y ≤ t) :=
  ⟨fun v => findNext_some_iff l t v hs, findNext_none_iff l t hs⟩

/-- Witness for C8 at the ascending list `[1, 3, 5]`. -/
theorem C8_find_next_upper_bound_witness :
    findNextDatetime [1, 3, 5] 2 = some 3 ∧ findNextDatetime [1, 3, 5] 7 = none := by
  have hs : ([1, 3, 5] : List ℤ).Sorted (· ≤ ·) := by decide
  constructor
  · exact ((C8_find_next_upper_bound [1, 3, 5] 2 hs).1 3).mpr
      ⟨by decide, by decide, by decide⟩
  · exact (C8_find_next_upper_bound [1, 3, 5] 7 hs).2.mpr (by decide)

/-- C3 counterexample: at phase angle 350° (inside [0°, 360°)) the code
computes `round(350 / 360 * 8) = round(7.77...) = 8`, which is outside the
claimed range [0, 7]. -/
theorem C3_phase_octant_counterexample :
    phaseCalc 350 = 8 ∧ ¬ phaseCalc 350 ≤ 7 ∧ (0:ℚ) ≤ 350 ∧ (350:ℚ) < 360 := by
  have hval : (350:ℚ) / 360 * 8 = 70 / 9 := by norm_num
  have hfl : Int.floor ((350:ℚ) / 360 * 8) = 7 := by
    rw [hval]
    have := Rat.floor_intCast_div_natCast 70 9
    norm_num at this ⊢
  have h8 : phaseCalc 350 = 8 := by
    unfold phaseCalc
    rw [pythonRound_eq_floor_add_one _ 7 hfl (by rw [hval]; norm_num)]
    decide
  exact ⟨h8, by omega, by norm_num, by norm_num⟩

/-- C3 (amended): for every phase angle in [0°, 360°) the Moon `phase`
operation returns `round(angle / 360 * 8)`, and this integer lies in
[0, 8] — the value 8 (which aliases new moon) is reached for angles of
337.5° and above, so the claimed upper bound 7 must be relaxed to 8. -/
theorem C3_phase_octant_range (a : ℚ) (h0 : 0 ≤ a) (h1 : a < 360) :
    phaseCalc a = pythonRound (a / 360 * 8) ∧
    0 ≤ phaseCalc a ∧ phaseCalc a ≤ 8 := by
  have hx0 : (0:ℚ) ≤ a / 360 * 8 := by positivity
  have hx8 : a / 360 * 8 < 8 := by
    have : a / 360 < 1 := by
      rw [div_lt_one (by norm_num)]
      exact h1
    nlinarith
  have hfl0 : 0 ≤ Int.floor (a / 360 * 8) := by
    exact_mod_cast Int.le_floor.mpr (by exact_mod_cast hx0)
  have hfl8 : Int.floor (a / 360 * 8) < 8 := by
    exact_mod_cast Int.floor_lt.mpr (by exact_mod_cast hx8)
  have hb := pythonRound_bounds (a / 360 * 8)
  exact ⟨rfl, by unfold phaseCalc; omega, by unfold phaseCalc; omega⟩

/-- Witness for the amended C3 at the in-range angle 123°. -/
theorem C3_phase_octant_range_witness :
    (0:ℚ) ≤ 123 ∧ (123:ℚ) < 360 ∧ 0 ≤ phaseCalc 123 ∧ phaseCalc 123 ≤ 8 := by
  have h := C3_phase_octant_range 123 (by norm_num) (by norm_num)
  exact ⟨by norm_num, by norm_num, h.2.1, h.2.2⟩

/-- C4 counterexample: with a loaded ephemeris that resolves "mars" (as
de421 does), constructing an Orb whose body is neither sun nor moon
succeeds, so construction does not fail for every non-Sun/Moon body. -/
theorem C4_init_counterexample :
    "mars" ≠ "sun" ∧ "mars" ≠ "moon" ∧
    (∃ s, Orb.init de421Lookup "mars" = .ok s) := by
  refine ⟨by decide, by decide, ⟨Orb.initState "mars", ?_⟩⟩
  rfl

/-- C4 (amended): `Orb.__init__` performs no body-identity validation of its
own; construction succeeds exactly when the external ephemeris lookup
resolves the name, and fails (with the lookup's KeyError) exactly when it
does not — in particular it succeeds for sun and moon whenever the
ephemeris contains them, but also for any other body the ephemeris
resolves. -/
theorem C4_init_no_validation (L : String → Option Unit) (name : String) :
    ((∃ s, Orb.init L name = .ok s) ↔ (L name).isSome = true) ∧
    ((L name).isNone = true → Orb.init L name = .error "KeyError") := by
  unfold Orb.init
  cases h : L name <;> simp

/-- Witness for the amended C4: under the de421-style catalog, "sun"
constructs successfully and the absent name "jupiter" fails. -/
theorem C4_init_no_validation_witness :
    (∃ s, Orb.init de421Lookup "sun" = .ok s) ∧
    Orb.init de421Lookup "jupiter" = .error "KeyError" := by
  constructor
  · exact (C4_init_no_validation de421Lookup "sun").1.mpr (by rfl)
  · exact (C4_init_no_validation de421Lookup "jupiter").2 (by rfl)

/-- C5: each uncached operation issues one oracle query over exactly the
fixed two-day window `[t, t + 2*1440]` minutes, returns the first reported
event shifted by the minute offset, and fails with the no-event error
exactly when that window yields no event. -/
theorem C5_uncached_two_day_window (O : Oracle) (s : OrbState) (d : ℚ)
    (m t : ℤ) :
    ((Orb.noon O s m t).1 = .error "No transit found." ↔
      O.findTransits t (t + 2 * 1440) = []) ∧
    (∀ x xs, O.findTransits t (t + 2 * 1440) = x :: xs →
      (Orb.noon O s m t).1 = .ok (x + m)) ∧
    ((Orb.midnight O s m t).1 = .error "No antitransit found." ↔
      O.findAntitransits t (t + 2 * 1440) = []) ∧
    (∀ x xs, O.findAntitransits t (t + 2 * 1440) = x :: xs →
      (Orb.midnight O s m t).1 = .ok (x + m)) ∧
    ((Orb.rise O s d m t).1 = .error "No rise found." ↔
      O.findRisings t (t + 2 * 1440) d = []) ∧
    (∀ p ps, O.findRisings t (t + 2 * 1440) d = p :: ps →
      (Orb.rise O s d m t).1 = .ok (p.1 + m)) ∧
    ((Orb.set O s d m t).1 = .error "No set found." ↔
      O.findSettings t (t + 2 * 1440) d = []) ∧
    (∀ p ps, O.findSettings t (t + 2 * 1440) d = p :: ps →
      (Orb.set O s d m t).1 = .ok (p.1 + m)) := by
  unfold Orb.noon Orb.midnight Orb.rise Orb.set
  refine ⟨?_, ?_, ?_, ?_, ?_, ?_, ?_, ?_⟩
  · cases h : O.findTransits t (t + 2 * 1440) <;> simp [h]
  · intro x xs h; rw [h]
  · cases h : O.findAntitransits t (t + 2 * 1440) <;> simp [h]
  · intro x xs h; rw [h]
  · cases h : O.findRisings t (t + 2 * 1440) d <;> simp [h]
  · intro p ps h; rw [h]
  · cases h : O.findSettings t (t + 2 * 1440) d <;> simp [h]
  · intro p ps h; rw [h]

/-- Witness for C5 on the demo oracle: the transit at `t+7` comes back
shifted by the minute offset 5, the rising at `t+9` comes back unshifted,
and the empty antitransit window raises. -/
theorem C5_uncached_two_day_window_witness :
    (Orb.noon uncachedDemoOracle (Orb.initState "sun") 5 0).1 = .ok 12 ∧
    (Orb.rise uncachedDemoOracle (Orb.initState "sun") 0 0 0).1 = .ok 9 ∧
    (Orb.midnight uncachedDemoOracle (Orb.initState "sun") 0 0).1 =
      .error "No antitransit found." := by
  refine ⟨?_, ?_, ?_⟩
  · exact (C5_uncached_two_day_window uncachedDemoOracle
      (Orb.initState "sun") 0 5 0).2.1 7 [] rfl
  · exact (C5_uncached_two_day_window uncachedDemoOracle
      (Orb.initState "sun") 0 0 0).2.2.2.2.2.1 (9, true) [] rfl
  · exact (C5_uncached_two_day_window uncachedDemoOracle
      (Orb.initState "sun") 0 0 0).2.2.1.mpr rfl

theorem noonCached_preserves (O : Oracle) (s : OrbState) (m t : ℤ) :
    (Orb.noonCached O s m t).2.orbName = s.orbName ∧
    (Orb.noonCached O s m t).2.maxCacheSize = s.maxCacheSize ∧
    (Orb.noonCached O s m t).2.cachePrefillHorizon = s.cachePrefillHorizon ∧
    (Orb.noonCached O s m t).2.riseCache = s.riseCache ∧
    (Orb.noonCached O s m t).2.setCache = s.setCache ∧
    (Orb.noonCached O s m t).2.midnightCache = s.midnightCache ∧
    (Orb.noonCached O s m t).2.phaseExposed =
      (Orb.getObserverAndOrb s).phaseExposed ∧
    (Orb.noonCached O s m t).2.lightExposed =
      (Orb.getObserverAndOrb s).lightExposed := by
  simp only [Orb.noonCached]
  split <;> (try split) <;>
    simp [apply_ite OrbState.orbName, apply_ite OrbState.maxCacheSize,
      apply_ite OrbState.cachePrefillHorizon, apply_ite OrbState.riseCache,
      apply_ite OrbState.setCache, apply_ite OrbState.midnightCache,
      apply_ite OrbState.phaseExposed, apply_ite OrbState.lightExposed,
      goo_orbName, goo_maxCacheSize, goo_cachePrefillHorizon,
      goo_riseCache, goo_setCache, goo_midnightCache]

theorem midnightCached_preserves (O : Oracle) (s : OrbState) (m t : ℤ) :
    (Orb.midnightCached O s m t).2.orbName = s.orbName ∧
    (Orb.midnightCached O s m t).2.maxCacheSize = s.maxCacheSize ∧
    (Orb.midnightCached O s m t).2.cachePrefillHorizon = s.cachePrefillHorizon ∧
    (Orb.midnightCached O s m t).2.riseCache = s.riseCache ∧
    (Orb.midnightCached O s m t).2.setCache = s.setCache ∧
    (Orb.midnightCached O s m t).2.noonCache = s.noonCache ∧
    (Orb.midnightCached O s m t).2.phaseExposed =
      (Orb.getObserverAndOrb s).phaseExposed ∧
    (Orb.midnightCached O s m t).2.lightExposed =
      (Orb.getObserverAndOrb s).lightExposed := by
  simp only [Orb.midnightCached]
  split <;> (try split) <;>
    simp [apply_ite OrbState.orbName, apply_ite OrbState.maxCacheSize,
      apply_ite OrbState.cachePrefillHorizon, apply_ite OrbState.riseCache,
      apply_ite OrbState.setCache, apply_ite OrbState.noonCache,
      apply_ite OrbState.phaseExposed, apply_ite OrbState.lightExposed,
      goo_orbName, goo_maxCacheSize, goo_cachePrefillHorizon,
      goo_riseCache, goo_setCache, goo_noonCache]

theorem riseCached_preserves (O : Oracle) (s : OrbState) (d : ℚ) (m t : ℤ) :
    (Orb.riseCached O s d m t).2.orbName = s.orbName ∧
    (Orb.riseCached O s d m t).2.maxCacheSize = s.maxCacheSize ∧
    (Orb.riseCached O s d m t).2.cachePrefillHorizon = s.cachePrefillHorizon ∧
    (Orb.riseCached O s d m t).2.noonCache = s.noonCache ∧
    (Orb.riseCached O s d m t).2.midnightCache = s.midnightCache ∧
    (Orb.riseCached O s d m t).2.setCache = s.setCache ∧
    (Orb.riseCached O s d m t).2.phaseExposed =
      (Orb.getObserverAndOrb s).phaseExposed ∧
    (Orb.riseCached O s d m t).2.lightExposed =
      (Orb.getObserverAndOrb s).lightExposed := by
  simp only [Orb.riseCached]
  split <;> (try split) <;>
    simp [apply_ite OrbState.orbName, apply_ite OrbState.maxCacheSize,
      apply_ite OrbState.cachePrefillHorizon, apply_ite OrbState.noonCache,
      apply_ite OrbState.midnightCache, apply_ite OrbState.setCache,
      apply_ite OrbState.phaseExposed, apply_ite OrbState.lightExposed,
      goo_orbName, goo_maxCacheSize, goo_cachePrefillHorizon,
      goo_noonCache, goo_midnightCache, goo_setCache]

theorem riseCached_frame (O : Oracle) (s : OrbState) (d : ℚ) (m t : ℤ)
    (d' : ℚ) (hd' : d' ≠ d) :
    (Orb.riseCached O s d m t).2.riseCache d' = s.riseCache d' := by
  simp only [Orb.riseCached]
  split <;> (try split) <;>
    simp [apply_ite OrbState.riseCache,
      apply_ite (fun f : ℚ → Option (List ℤ) => f d'), hd', goo_riseCache]

theorem setCached_preserves (O : Oracle) (s : OrbState) (d : ℚ) (m t : ℤ) :
    (Orb.setCached O s d m t).2.orbName = s.orbName ∧
    (Orb.setCached O s d m t).2.maxCacheSize = s.maxCacheSize ∧
    (Orb.setCached O s d m t).2.cachePrefillHorizon = s.cachePrefillHorizon ∧
    (Orb.setCached O s d m t).2.noonCache = s.noonCache ∧
    (Orb.setCached O s d m t).2.midnightCache = s.midnightCache ∧
    (Orb.setCached O s d m t).2.riseCache = s.riseCache ∧
    (Orb.setCached O s d m t).2.phaseExposed =
      (Orb.getObserverAndOrb s).phaseExposed ∧
    (Orb.setCached O s d m t).2.lightExposed =
      (Orb.getObserverAndOrb s).lightExposed := by
  simp only [Orb.setCached]
  split <;> (try split) <;>
    simp [apply_ite OrbState.orbName, apply_ite OrbState.maxCacheSize,
      apply_ite OrbState.cachePrefillHorizon, apply_ite OrbState.noonCache,
      apply_ite OrbState.midnightCache, apply_ite OrbState.riseCache,
      apply_ite OrbState.phaseExposed, apply_ite OrbState.lightExposed,
      goo_orbName, goo_maxCacheSize, goo_cachePrefillHorizon,
      goo_noonCache, goo_midnightCache, goo_riseCache]

theorem setCached_frame (O : Oracle) (s : OrbState) (d : ℚ) (m t : ℤ)
    (d' : ℚ) (hd' : d' ≠ d) :
    (Orb.setCached O s d m t).2.setCache d' = s.setCache d' := by
  simp only [Orb.setCached]
  split <;> (try split) <;>
    simp [apply_ite OrbState.setCache,
      apply_ite (fun f : ℚ → Option (List ℤ) => f d'), hd', goo_setCache]

theorem noon_snd (O : Oracle) (s : OrbState) (m t : ℤ) :
    (Orb.noon O s m t).2 = Orb.getObserverAndOrb s := by
  simp only [Orb.noon]; split <;> rfl

theorem midnight_snd (O : Oracle) (s : OrbState) (m t : ℤ) :
    (Orb.midnight O s m t).2 = Orb.getObserverAndOrb s := by
  simp only [Orb.midnight]; split <;> rfl

theorem rise_snd (O : Oracle) (s : OrbState) (d : ℚ) (m t : ℤ) :
    (Orb.rise O s d m t).2 = Orb.getObserverAndOrb s := by
  simp only [Orb.rise]; split <;> rfl

theorem set_snd (O : Oracle) (s : OrbState) (d : ℚ) (m t : ℤ) :
    (Orb.set O s d m t).2 = Orb.getObserverAndOrb s := by
  simp only [Orb.set]; split <;> rfl

theorem goo_eq_of_not_moon (s : OrbState) (h : s.orbName ≠ "moon") :
    Orb.getObserverAndOrb s = s := by
  unfold Orb.getObserverAndOrb; rw [if_neg h]

theorem goo_flags_moon (s : OrbState) (h : s.orbName = "moon") :
    (Orb.getObserverAndOrb s).phaseExposed = true ∧
    (Orb.getObserverAndOrb s).lightExposed = true := by
  unfold Orb.getObserverAndOrb; rw [if_pos h]; exact ⟨rfl, rfl⟩

theorem runQuery_orbName (O : Oracle) (s : OrbState) (q : Query) :
    (runQuery O s q).orbName = s.orbName := by
  cases q with
  | noonQ m t => exact (noonCached_preserves O s m t).1
  | midnightQ m t => exact (midnightCached_preserves O s m t).1
  | riseQ d m t => exact (riseCached_preserves O s d m t).1
  | setQ d m t => exact (setCached_preserves O s d m t).1
  | noonU m t => show (Orb.noon O s m t).2.orbName = _; rw [noon_snd, goo_orbName]
  | midnightU m t =>
    show (Orb.midnight O s m t).2.orbName = _; rw [midnight_snd, goo_orbName]
  | riseU d m t =>
    show (Orb.rise O s d m t).2.orbName = _; rw [rise_snd, goo_orbName]
  | setU d m t =>
    show (Orb.set O s d m t).2.orbName = _; rw [set_snd, goo_orbName]

theorem runQuery_phaseExposed (O : Oracle) (s : OrbState) (q : Query) :
    (runQuery O s q).phaseExposed = (Orb.getObserverAndOrb s).phaseExposed := by
  cases q with
  | noonQ m t => exact (noonCached_preserves O s m t).2.2.2.2.2.2.1
  | midnightQ m t => exact (midnightCached_preserves O s m t).2.2.2.2.2.2.1
  | riseQ d m t => exact (riseCached_preserves O s d m t).2.2.2.2.2.2.1
  | setQ d m t => exact (setCached_preserves O s d m t).2.2.2.2.2.2.1
  | noonU m t => show (Orb.noon O s m t).2.phaseExposed = _; rw [noon_snd]
  | midnightU m t =>
    show (Orb.midnight O s m t).2.phaseExposed = _; rw [midnight_snd]
  | riseU d m t => show (Orb.rise O s d m t).2.phaseExposed = _; rw [rise_snd]
  | setU d m t => show (Orb.set O s d m t).2.phaseExposed = _; rw [set_snd]

theorem runQuery_lightExposed (O : Oracle) (s : OrbState) (q : Query) :
    (runQuery O s q).lightExposed = (Orb.getObserverAndOrb s).lightExposed := by
  cases q with
  | noonQ m t => exact (noonCached_preserves O s m t).2.2.2.2.2.2.2
  | midnightQ m t => exact (midnightCached_preserves O s m t).2.2.2.2.2.2.2
  | riseQ d m t => exact (riseCached_preserves O s d m t).2.2.2.2.2.2.2
  | setQ d m t => exact (setCached_preserves O s d m t).2.2.2.2.2.2.2
  | noonU m t => show (Orb.noon O s m t).2.lightExposed = _; rw [noon_snd]
  | midnightU m t =>
    show (Orb.midnight O s m t).2.lightExposed = _; rw [midnight_snd]
  | riseU d m t => show (Orb.rise O s d m t).2.lightExposed = _; rw [rise_snd]
  | setU d m t => show (Orb.set O s d m t).2.lightExposed = _; rw [set_snd]

theorem runQueries_cons (O : Oracle) (s : OrbState) (q : Query)
    (qs : List Query) :
    runQueries O s (q :: qs) = runQueries O (runQuery O s q) qs := rfl

theorem runQueries_not_moon (O : Oracle) (qs : List Query) :
    ∀ s : OrbState, s.orbName ≠ "moon" →
    (runQueries O s qs).orbName = s.orbName ∧
    (runQueries O s qs).phaseExposed = s.phaseExposed ∧
    (runQueries O s qs).lightExposed = s.lightExposed := by
  induction qs with
  | nil => exact fun s _ => ⟨rfl, rfl, rfl⟩
  | cons q qs ih =>
    intro s h
    have hq := runQuery_orbName O s q
    have ih' := ih (runQuery O s q) (by rw [hq]; exact h)
    rw [runQueries_cons]
    refine ⟨by rw [ih'.1, hq], ?_, ?_⟩
    · rw [ih'.2.1, runQuery_phaseExposed, goo_eq_of_not_moon s h]
    · rw [ih'.2.2, runQuery_lightExposed, goo_eq_of_not_moon s h]

theorem runQueries_moon (O : Oracle) (qs : List Query) :
    ∀ s : OrbState, s.orbName = "moon" → s.phaseExposed = true →
    s.lightExposed = true →
    (runQueries O s qs).orbName = "moon" ∧
    (runQueries O s qs).phaseExposed = true ∧
    (runQueries O s qs).lightExposed = true := by
  induction qs with
  | nil => exact fun s h hp hl => ⟨h, hp, hl⟩
  | cons q qs ih =>
    intro s h hp hl
    have hq : (runQuery O s q).orbName = "moon" := by
      rw [runQuery_orbName]; exact h
    rw [runQueries_cons]
    exact ih (runQuery O s q) hq
      (by rw [runQuery_phaseExposed]; exact (goo_flags_moon s h).1)
      (by rw [runQuery_lightExposed]; exact (goo_flags_moon s h).2)

/-- C6: the `phase` and `light` attributes are injected only on moon
instances: on an Orb constructed for the sun, no sequence of facade
operations ever exposes them, and invoking either fails with the
AttributeError of a missing attribute; on a moon instance any single
operation injects them, after which both calls succeed. -/
theorem C6_phase_light_moon_only (O : Oracle) (qs : List Query) (a : ℚ)
    (v : ℤ) :
    (Orb.callPhase (runQueries O (Orb.initState "sun") qs) a =
        .error "AttributeError" ∧
     Orb.callLight (runQueries O (Orb.initState "sun") qs) v =
        .error "AttributeError") ∧
    (∀ (q : Query) (qs2 : List Query),
      Orb.callPhase (runQueries O (Orb.initState "moon") (q :: qs2)) a =
        .ok (phaseCalc a) ∧
      Orb.callLight (runQueries O (Orb.initState "moon") (q :: qs2)) v =
        .ok v) := by
  constructor
  · have h := runQueries_not_moon O qs (Orb.initState "sun") (by decide)
    have hp : (runQueries O (Orb.initState "sun") qs).phaseExposed = false :=
      h.2.1
    have hl : (runQueries O (Orb.initState "sun") qs).lightExposed = false :=
      h.2.2
    constructor
    · unfold Orb.callPhase; rw [hp]; rfl
    · unfold Orb.callLight; rw [hl]; rfl
  · intro q qs2
    have hq : (runQuery O (Orb.initState "moon") q).orbName = "moon" := by
      rw [runQuery_orbName]; rfl
    have h := runQueries_moon O qs2 (runQuery O (Orb.initState "moon") q) hq
      (by rw [runQuery_phaseExposed]; exact (goo_flags_moon _ rfl).1)
      (by rw [runQuery_lightExposed]; exact (goo_flags_moon _ rfl).2)
    rw [runQueries_cons]
    constructor
    · unfold Orb.callPhase; rw [h.2.1]; rfl
    · unfold Orb.callLight; rw [h.2.2]; rfl

theorem noonCached_char (O : Oracle) (s : OrbState) (m t : ℤ) :
    (∀ v, findNextDatetime (noonLookupList O s t) t = some v →
       (Orb.noonCached O s m t).1 = .ok (v + m) ∧
       (Orb.noonCached O s m t).2.noonCache = noonLookupList O s t) ∧
    (findNextDatetime (noonLookupList O s t) t = none →
       (Orb.noonCached O s m t).2.noonCache =
         mergeSortedDatetimes (noonLookupList O s t)
           (O.findTransits t (t + 1440 * (s.cachePrefillHorizon : ℤ))) ∧
       (O.findTransits t (t + 1440 * (s.cachePrefillHorizon : ℤ)) = [] →
         (Orb.noonCached O s m t).1 = .error "No transit found.") ∧
       (∀ x xs,
         O.findTransits t (t + 1440 * (s.cachePrefillHorizon : ℤ)) = x :: xs →
         (Orb.noonCached O s m t).1 = .ok (x + m))) := by
  unfold noonLookupList
  simp only [Orb.noonCached, goo_noonCache, goo_cachePrefillHorizon,
    goo_maxCacheSize, apply_ite OrbState.noonCache,
    apply_ite OrbState.maxCacheSize, ite_self]
  refine ⟨fun v hv => ?_, fun hn => ?_⟩
  · refine ⟨?_, ?_⟩ <;>
      (rw [hv]; try simp only [apply_ite OrbState.noonCache, goo_noonCache])
  · refine ⟨?_, fun hnew => ?_, fun x xs hnew => ?_⟩
    · rw [hn]
      cases hnew : O.findTransits t (t + 1440 * (s.cachePrefillHorizon : ℤ)) <;>
        simp only [apply_ite OrbState.noonCache, goo_noonCache]
    · rw [hn, hnew]
    · rw [hn, hnew]

theorem midnightCached_char (O : Oracle) (s : OrbState) (m t : ℤ) :
    (∀ v, findNextDatetime (midnightLookupList O s t) t = some v →
       (Orb.midnightCached O s m t).1 = .ok (v + m) ∧
       (Orb.midnightCached O s m t).2.midnightCache = midnightLookupList O s t) ∧
    (findNextDatetime (midnightLookupList O s t) t = none →
       (Orb.midnightCached O s m t).2.midnightCache =
         mergeSortedDatetimes (midnightLookupList O s t)
           (O.findAntitransits t (t + 1440 * (s.cachePrefillHorizon : ℤ))) ∧
       (O.findAntitransits t (t + 1440 * (s.cachePrefillHorizon : ℤ)) = [] →
         (Orb.midnightCached O s m t).1 = .error "No antitransit found.") ∧
       (∀ x xs,
         O.findAntitransits t (t + 1440 * (s.cachePrefillHorizon : ℤ)) = x :: xs →
         (Orb.midnightCached O s m t).1 = .ok (x + m))) := by
  unfold midnightLookupList
  simp only [Orb.midnightCached, goo_midnightCache, goo_cachePrefillHorizon,
    goo_maxCacheSize, apply_ite OrbState.midnightCache,
    apply_ite OrbState.maxCacheSize, ite_self]
  refine ⟨fun v hv => ?_, fun hn => ?_⟩
  · refine ⟨?_, ?_⟩ <;>
      (rw [hv]; try simp only [apply_ite OrbState.midnightCache, goo_midnightCache])
  · refine ⟨?_, fun hnew => ?_, fun x xs hnew => ?_⟩
    · rw [hn]
      cases hnew :
          O.findAntitransits t (t + 1440 * (s.cachePrefillHorizon : ℤ)) <;>
        simp only [apply_ite OrbState.midnightCache, goo_midnightCache]
    · rw [hn, hnew]
    · rw [hn, hnew]

theorem riseCached_char (O : Oracle) (s : OrbState) (d : ℚ) (m t : ℤ) :
    (∀ v, findNextDatetime (riseEntryList O s d t) t = some v →
       (Orb.riseCached O s d m t).1 = .ok (v + m) ∧
       (Orb.riseCached O s d m t).2.riseCache d =
         some (riseEntryList O s d t)) ∧
    (findNextDatetime (riseEntryList O s d t) t = none →
       (Orb.riseCached O s d m t).2.riseCache d =
         some (mergeSortedDatetimes (riseEntryList O s d t)
           ((O.findRisings t (t + 1440 * (s.cachePrefillHorizon : ℤ)) d).map
             Prod.fst)) ∧
       ((O.findRisings t (t + 1440 * (s.cachePrefillHorizon : ℤ)) d).map
           Prod.fst = [] →
         (Orb.riseCached O s d m t).1 = .error "No rise found.") ∧
       (∀ x xs,
         (O.findRisings t (t + 1440 * (s.cachePrefillHorizon : ℤ)) d).map
           Prod.fst = x :: xs →
         (Orb.riseCached O s d m t).1 = .ok (x + m))) := by
  unfold riseEntryList
  cases hrc : s.riseCache d with
  | none =>
    simp only [Orb.riseCached, goo_riseCache, goo_cachePrefillHorizon,
      goo_maxCacheSize, hrc, Option.isNone_none, ite_true,
      apply_ite OrbState.riseCache, apply_ite OrbState.maxCacheSize,
      apply_ite (fun f : ℚ → Option (List ℤ) => f d),
      apply_ite (fun o : Option (List ℤ) => o.getD []),
      apply_ite (Option.some : List ℤ → Option (List ℤ)),
      eq_self_iff_true, Option.getD_some, ite_self, if_true, if_false]
    refine ⟨fun v hv => ?_, fun hn => ?_⟩
    · refine ⟨?_, ?_⟩ <;> (rw [hv]; try simp only
        [apply_ite OrbState.riseCache,
         apply_ite (fun f : ℚ → Option (List ℤ) => f d),
         apply_ite (Option.some : List ℤ → Option (List ℤ)),
         goo_riseCache, hrc, eq_self_iff_true, ite_true, ite_self, if_true, if_false])
    · refine ⟨?_, fun hnew => ?_, fun x xs hnew => ?_⟩
      · rw [hn]
        cases hnew : (O.findRisings t
            (t + 1440 * (s.cachePrefillHorizon : ℤ)) d).map Prod.fst <;>
          simp only [apply_ite OrbState.riseCache,
            apply_ite (fun f : ℚ → Option (List ℤ) => f d),
            apply_ite (Option.some : List ℤ → Option (List ℤ)),
            goo_riseCache, hrc, eq_self_iff_true, ite_true, ite_self, if_true, if_false]
      · rw [hn, hnew]
      · rw [hn, hnew]
  | some E =>
    simp only [Orb.riseCached, goo_riseCache, goo_cachePrefillHorizon,
      goo_maxCacheSize, hrc, Option.isNone_some, Bool.false_eq_true,
      ite_false, apply_ite OrbState.riseCache,
      apply_ite OrbState.maxCacheSize,
      apply_ite (fun f : ℚ → Option (List ℤ) => f d),
      apply_ite (fun o : Option (List ℤ) => o.getD []),
      apply_ite (Option.some : List ℤ → Option (List ℤ)),
      eq_self_iff_true, Option.getD_some, ite_self, if_true, if_false]
    refine ⟨fun v hv => ?_, fun hn => ?_⟩
    · refine ⟨?_, ?_⟩ <;> (rw [hv]; try simp only
        [apply_ite OrbState.riseCache,
         apply_ite (fun f : ℚ → Option (List ℤ) => f d),
         apply_ite (Option.some : List ℤ → Option (List ℤ)),
         goo_riseCache, hrc, eq_self_iff_true, ite_true, ite_self, if_true, if_false])
    · refine ⟨?_, fun hnew => ?_, fun x xs hnew => ?_⟩
      · rw [hn]
        cases hnew : (O.findRisings t
            (t + 1440 * (s.cachePrefillHorizon : ℤ)) d).map Prod.fst <;>
          simp only [apply_ite OrbState.riseCache,
            apply_ite (fun f : ℚ → Option (List ℤ) => f d),
            apply_ite (Option.some : List ℤ → Option (List ℤ)),
            goo_riseCache, hrc, eq_self_iff_true, ite_true, ite_self, if_true, if_false]
      · rw [hn, hnew]
      · rw [hn, hnew]

theorem setCached_char (O : Oracle) (s : OrbState) (d : ℚ) (m t : ℤ) :
    (∀ v, findNextDatetime (setEntryList O s d t) t = some v →
       (Orb.setCached O s d m t).1 = .ok (v + m) ∧
       (Orb.setCached O s d m t).2.setCache d =
         some (setEntryList O s d t)) ∧
    (findNextDatetime (setEntryList O s d t) t = none →
       (Orb.setCached O s d m t).2.setCache d =
         some (mergeSortedDatetimes (setEntryList O s d t)
           ((O.findSettings t (t + 1440 * (s.cachePrefillHorizon : ℤ)) d).map
             Prod.fst)) ∧
       ((O.findSettings t (t + 1440 * (s.cachePrefillHorizon : ℤ)) d).map
           Prod.fst = [] →
         (Orb.setCached O s d m t).1 = .error "No set found.") ∧
       (∀ x xs,
         (O.findSettings t (t + 1440 * (s.cachePrefillHorizon : ℤ)) d).map
           Prod.fst = x :: xs →
         (Orb.setCached O s d m t).1 = .ok (x + m))) := by
  unfold setEntryList
  cases hrc : s.setCache d with
  | none =>
    simp only [Orb.setCached, goo_setCache, goo_cachePrefillHorizon,
      goo_maxCacheSize, hrc, Option.isNone_none, ite_true,
      apply_ite OrbState.setCache, apply_ite OrbState.maxCacheSize,
      apply_ite (fun f : ℚ → Option (List ℤ) => f d),
      apply_ite (fun o : Option (List ℤ) => o.getD []),
      apply_ite (Option.some : List ℤ → Option (List ℤ)),
      eq_self_iff_true, Option.getD_some, ite_self, if_true, if_false]
    refine ⟨fun v hv => ?_, fun hn => ?_⟩
    · refine ⟨?_, ?_⟩ <;> (rw [hv]; try simp only
        [apply_ite OrbState.setCache,
         apply_ite (fun f : ℚ → Option (List ℤ) => f d),
         apply_ite (Option.some : List ℤ → Option (List ℤ)),
         goo_setCache, hrc, eq_self_iff_true, ite_true, ite_self, if_true, if_false])
    · refine ⟨?_, fun hnew => ?_, fun x xs hnew => ?_⟩
      · rw [hn]
        cases hnew : (O.findSettings t
            (t + 1440 * (s.cachePrefillHorizon : ℤ)) d).map Prod.fst <;>
          simp only [apply_ite OrbState.setCache,
            apply_ite (fun f : ℚ → Option (List ℤ) => f d),
            apply_ite (Option.some : List ℤ → Option (List ℤ)),
            goo_setCache, hrc, eq_self_iff_true, ite_true, ite_self, if_true, if_false]
      · rw [hn, hnew]
      · rw [hn, hnew]
  | some E =>
    simp only [Orb.setCached, goo_setCache, goo_cachePrefillHorizon,
      goo_maxCacheSize, hrc, Option.isNone_some, Bool.false_eq_true,
      ite_false, apply_ite OrbState.setCache,
      apply_ite OrbState.maxCacheSize,
      apply_ite (fun f : ℚ → Option (List ℤ) => f d),
      apply_ite (fun o : Option (List ℤ) => o.getD []),
      apply_ite (Option.some : List ℤ → Option (List ℤ)),
      eq_self_iff_true, Option.getD_some, ite_self, if_true, if_false]
    refine ⟨fun v hv => ?_, fun hn => ?_⟩
    · refine ⟨?_, ?_⟩ <;> (rw [hv]; try simp only
        [apply_ite OrbState.setCache,
         apply_ite (fun f : ℚ → Option (List ℤ) => f d),
         apply_ite (Option.some : List ℤ → Option (List ℤ)),
         goo_setCache, hrc, eq_self_iff_true, ite_true, ite_self, if_true, if_false])
    · refine ⟨?_, fun hnew => ?_, fun x xs hnew => ?_⟩
      · rw [hn]
        cases hnew : (O.findSettings t
            (t + 1440 * (s.cachePrefillHorizon : ℤ)) d).map Prod.fst <;>
          simp only [apply_ite OrbState.setCache,
            apply_ite (fun f : ℚ → Option (List ℤ) => f d),
            apply_ite (Option.some : List ℤ → Option (List ℤ)),
            goo_setCache, hrc, eq_self_iff_true, ite_true, ite_self, if_true, if_false]
      · rw [hn, hnew]
      · rw [hn, hnew]

theorem noonLookupList_sorted (O : Oracle) (s : OrbState) (t : ℤ)
    (hs : s.noonCache.Sorted (· ≤ ·))
    (hT : ∀ t0 t1, (O.findTransits t0 t1).Sorted (· ≤ ·)) :
    (noonLookupList O s t).Sorted (· ≤ ·) := by
  simp only [noonLookupList]
  split_ifs <;> first | exact List.sorted_nil | exact hT _ _ | exact hs

theorem midnightLookupList_sorted (O : Oracle) (s : OrbState) (t : ℤ)
    (hs : s.midnightCache.Sorted (· ≤ ·))
    (hA : ∀ t0 t1, (O.findAntitransits t0 t1).Sorted (· ≤ ·)) :
    (midnightLookupList O s t).Sorted (· ≤ ·) := by
  simp only [midnightLookupList]
  split_ifs <;> first | exact List.sorted_nil | exact hA _ _ | exact hs

theorem riseEntryList_sorted (O : Oracle) (s : OrbState) (d : ℚ) (t : ℤ)
    (hpre : ∀ l, s.riseCache d = some l → l.Sorted (· ≤ ·))
    (hR : ∀ t0 t1 dd,
      ((O.findRisings t0 t1 dd).map Prod.fst).Sorted (· ≤ ·)) :
    (riseEntryList O s d t).Sorted (· ≤ ·) := by
  simp only [riseEntryList]
  cases hrc : s.riseCache d with
  | none =>
    simp only [hrc, Option.isNone_none, if_true, ite_true, Option.getD_none]
    split_ifs <;> first | exact List.sorted_nil | exact hR _ _ _
  | some E =>
    simp only [hrc, Option.isNone_some, Bool.false_eq_true, if_false,
      ite_false, Option.getD_some]
    split_ifs <;> first | exact List.sorted_nil | exact hpre E hrc

theorem setEntryList_sorted (O : Oracle) (s : OrbState) (d : ℚ) (t : ℤ)
    (hpre : ∀ l, s.setCache d = some l → l.Sorted (· ≤ ·))
    (hS : ∀ t0 t1 dd,
      ((O.findSettings t0 t1 dd).map Prod.fst).Sorted (· ≤ ·)) :
    (setEntryList O s d t).Sorted (· ≤ ·) := by
  simp only [setEntryList]
  cases hrc : s.setCache d with
  | none =>
    simp only [hrc, Option.isNone_none, if_true, ite_true, Option.getD_none]
    split_ifs <;> first | exact List.sorted_nil | exact hS _ _ _
  | some E =>
    simp only [hrc, Option.isNone_some, Bool.false_eq_true, if_false,
      ite_false, Option.getD_some]
    split_ifs <;> first | exact List.sorted_nil | exact hpre E hrc

theorem noonCached_cache_sorted (O : Oracle) (s : OrbState) (m t : ℤ)
    (hs : s.noonCache.Sorted (· ≤ ·))
    (hT : ∀ t0 t1, (O.findTransits t0 t1).Sorted (· ≤ ·)) :
    (Orb.noonCached O s m t).2.noonCache.Sorted (· ≤ ·) := by
  have hl := noonLookupList_sorted O s t hs hT
  cases hfn : findNextDatetime (noonLookupList O s t) t with
  | some v => rw [((noonCached_char O s m t).1 v hfn).2]; exact hl
  | none =>
    rw [((noonCached_char O s m t).2 hfn).1]
    exact merge_sorted _ _ hl (hT _ _)

theorem midnightCached_cache_sorted (O : Oracle) (s : OrbState) (m t : ℤ)
    (hs : s.midnightCache.Sorted (· ≤ ·))
    (hA : ∀ t0 t1, (O.findAntitransits t0 t1).Sorted (· ≤ ·)) :
    (Orb.midnightCached O s m t).2.midnightCache.Sorted (· ≤ ·) := by
  have hl := midnightLookupList_sorted O s t hs hA
  cases hfn : findNextDatetime (midnightLookupList O s t) t with
  | some v => rw [((midnightCached_char O s m t).1 v hfn).2]; exact hl
  | none =>
    rw [((midnightCached_char O s m t).2 hfn).1]
    exact merge_sorted _ _ hl (hA _ _)

theorem riseCached_entry_sorted (O : Oracle) (s : OrbState) (d : ℚ) (m t : ℤ)
    (hpre : ∀ l, s.riseCache d = some l → l.Sorted (· ≤ ·))
    (hR : ∀ t0 t1 dd,
      ((O.findRisings t0 t1 dd).map Prod.fst).Sorted (· ≤ ·)) :
    ∀ l, (Orb.riseCached O s d m t).2.riseCache d = some l →
      l.Sorted (· ≤ ·) := by
  intro l hl
  have he := riseEntryList_sorted O s d t hpre hR
  cases hfn : findNextDatetime (riseEntryList O s d t) t with
  | some v =>
    rw [((riseCached_char O s d m t).1 v hfn).2] at hl
    obtain rfl := Option.some_injective _ hl.symm
    exact he
  | none =>
    rw [((riseCached_char O s d m t).2 hfn).1] at hl
    obtain rfl := Option.some_injective _ hl.symm
    exact merge_sorted _ _ he (hR _ _ _)

theorem setCached_entry_sorted (O : Oracle) (s : OrbState) (d : ℚ) (m t : ℤ)
    (hpre : ∀ l, s.setCache d = some l → l.Sorted (· ≤ ·))
    (hS : ∀ t0 t1 dd,
      ((O.findSettings t0 t1 dd).map Prod.fst).Sorted (· ≤ ·)) :
    ∀ l, (Orb.setCached O s d m t).2.setCache d = some l →
      l.Sorted (· ≤ ·) := by
  intro l hl
  have he := setEntryList_sorted O s d t hpre hS
  cases hfn : findNextDatetime (setEntryList O s d t) t with
  | some v =>
    rw [((setCached_char O s d m t).1 v hfn).2] at hl
    obtain rfl := Option.some_injective _ hl.symm
    exact he
  | none =>
    rw [((setCached_char O s d m t).2 hfn).1] at hl
    obtain rfl := Option.some_injective _ hl.symm
    exact merge_sorted _ _ he (hS _ _ _)

theorem runQuery_sorted (O : Oracle)
    (hT : ∀ t0 t1, (O.findTransits t0 t1).Sorted (· ≤ ·))
    (hA : ∀ t0 t1, (O.findAntitransits t0 t1).Sorted (· ≤ ·))
    (hR : ∀ t0 t1 dd,
      ((O.findRisings t0 t1 dd).map Prod.fst).Sorted (· ≤ ·))
    (hS : ∀ t0 t1 dd,
      ((O.findSettings t0 t1 dd).map Prod.fst).Sorted (· ≤ ·))
    (s : OrbState) (h : CachesSorted s) (q : Query) :
    CachesSorted (runQuery O s q) := by
  obtain ⟨h1, h2, h3, h4⟩ := h
  cases q with
  | noonQ m t =>
    have hp := noonCached_preserves O s m t
    exact ⟨noonCached_cache_sorted O s m t h1 hT,
      hp.2.2.2.2.2.1 ▸ h2,
      fun d l hl => h3 d l (hp.2.2.2.1 ▸ hl),
      fun d l hl => h4 d l (hp.2.2.2.2.1 ▸ hl)⟩
  | midnightQ m t =>
    have hp := midnightCached_preserves O s m t
    exact ⟨hp.2.2.2.2.2.1 ▸ h1,
      midnightCached_cache_sorted O s m t h2 hA,
      fun d l hl => h3 d l (hp.2.2.2.1 ▸ hl),
      fun d l hl => h4 d l (hp.2.2.2.2.1 ▸ hl)⟩
  | riseQ d m t =>
    have hp := riseCached_preserves O s d m t
    refine ⟨hp.2.2.2.1 ▸ h1, hp.2.2.2.2.1 ▸ h2, fun d0 l hl => ?_,
      fun d0 l hl => h4 d0 l (hp.2.2.2.2.2.1 ▸ hl)⟩
    by_cases hd : d0 = d
    · subst hd
      exact riseCached_entry_sorted O s d0 m t (fun l0 => h3 d0 l0) hR l hl
    · exact h3 d0 l (riseCached_frame O s d m t d0 hd ▸ hl)
  | setQ d m t =>
    have hp := setCached_preserves O s d m t
    refine ⟨hp.2.2.2.1 ▸ h1, hp.2.2.2.2.1 ▸ h2,
      fun d0 l hl => h3 d0 l (hp.2.2.2.2.2.1 ▸ hl), fun d0 l hl => ?_⟩
    by_cases hd : d0 = d
    · subst hd
      exact setCached_entry_sorted O s d0 m t (fun l0 => h4 d0 l0) hS l hl
    · exact h4 d0 l (setCached_frame O s d m t d0 hd ▸ hl)
  | noonU m t =>
    show CachesSorted (Orb.noon O s m t).2
    rw [noon_snd]
    exact ⟨goo_noonCache s ▸ h1, goo_midnightCache s ▸ h2,
      fun d l hl => h3 d l (congrFun (goo_riseCache s) d ▸ hl),
      fun d l hl => h4 d l (congrFun (goo_setCache s) d ▸ hl)⟩
  | midnightU m t =>
    show CachesSorted (Orb.midnight O s m t).2
    rw [midnight_snd]
    exact ⟨goo_noonCache s ▸ h1, goo_midnightCache s ▸ h2,
      fun d l hl => h3 d l (congrFun (goo_riseCache s) d ▸ hl),
      fun d l hl => h4 d l (congrFun (goo_setCache s) d ▸ hl)⟩
  | riseU d m t =>
    show CachesSorted (Orb.rise O s d m t).2
    rw [rise_snd]
    exact ⟨goo_noonCache s ▸ h1, goo_midnightCache s ▸ h2,
      fun d0 l hl => h3 d0 l (congrFun (goo_riseCache s) d0 ▸ hl),
      fun d0 l hl => h4 d0 l (congrFun (goo_setCache s) d0 ▸ hl)⟩
  | setU d m t =>
    show CachesSorted (Orb.set O s d m t).2
    rw [set_snd]
    exact ⟨goo_noonCache s ▸ h1, goo_midnightCache s ▸ h2,
      fun d0 l hl => h3 d0 l (congrFun (goo_riseCache s) d0 ▸ hl),
      fun d0 l hl => h4 d0 l (congrFun (goo_setCache s) d0 ▸ hl)⟩

theorem runQueries_sorted (O : Oracle)
    (hT : ∀ t0 t1, (O.findTransits t0 t1).Sorted (· ≤ ·))
    (hA : ∀ t0 t1, (O.findAntitransits t0 t1).Sorted (· ≤ ·))
    (hR : ∀ t0 t1 dd,
      ((O.findRisings t0 t1 dd).map Prod.fst).Sorted (· ≤ ·))
    (hS : ∀ t0 t1 dd,
      ((O.findSettings t0 t1 dd).map Prod.fst).Sorted (· ≤ ·))
    (qs : List Query) :
    ∀ s : OrbState, CachesSorted s → CachesSorted (runQueries O s qs) := by
  induction qs with
  | nil => exact fun s h => h
  | cons q qs ih =>
    intro s h
    rw [runQueries_cons]
    exact ih (runQuery O s q) (runQuery_sorted O hT hA hR hS s h q)

/-- C1 counterexample: `merge_sorted_datetimes` does not preserve uniqueness
for every pair of ascending duplicate-free inputs — merging `[0]` with `[0]`
(both strictly increasing) yields `[0, 0]` — and the duplicate reaches a
real cache state: with an oracle whose every single reply is strictly
increasing, duplicate-free and inside the requested window, one
`noon_cached` query on a fresh Orb (prefill followed by a refetch of the
same window, merged) leaves `noon_cache = [10, 10]`. -/
theorem C1_series_counterexample :
    (mergeSortedDatetimes [0] [0] = [0, 0] ∧
     ([0] : List ℤ).Sorted (· < ·) ∧
     ¬ ([0, 0] : List ℤ).Sorted (· < ·)) ∧
    ((∀ t0 t1 : ℤ, (dupOracle.findTransits t0 t1).Sorted (· < ·)) ∧
     (∀ t0 t1 x : ℤ, x ∈ dupOracle.findTransits t0 t1 →
        t0 ≤ x ∧ (t0 ≤ t1 → x ≤ t1)) ∧
     (runQueries dupOracle (Orb.initState "sun")
        [Query.noonQ 0 10]).noonCache = [10, 10] ∧
     ¬ (runQueries dupOracle (Orb.initState "sun")
        [Query.noonQ 0 10]).noonCache.Sorted (· < ·)) := by
  refine ⟨⟨by decide, by decide, by decide⟩, ?_, ?_, by decide, ?_⟩
  · intro t0 t1
    simp [dupOracle]
  · intro t0 t1 x hx
    simp [dupOracle] at hx
    subst hx
    exact ⟨le_rfl, fun h => h⟩
  · intro hsort
    have : (runQueries dupOracle (Orb.initState "sun")
        [Query.noonQ 0 10]).noonCache = [10, 10] := by decide
    rw [this] at hsort
    exact (by decide : ¬ ([10, 10] : List ℤ).Sorted (· < ·)) hsort

/-- C1 (amended): the two-pointer merge preserves order for every pair of
non-decreasing inputs, and preserves strict order (uniqueness) when the two
strictly-increasing inputs are disjoint; consequently, with an oracle whose
replies are strictly increasing and duplicate-free, every reachable cache
state stores non-decreasing series — but equal adjacent timestamps can
occur, because a refetch can return a timestamp that is already cached and
the merge keeps both copies; strict increase therefore holds only up to
that duplication. -/
theorem C1_cache_order (O : Oracle) (name : String)
    (hT : ∀ t0 t1, (O.findTransits t0 t1).Sorted (· < ·))
    (hA : ∀ t0 t1, (O.findAntitransits t0 t1).Sorted (· < ·))
    (hR : ∀ t0 t1 d, ((O.findRisings t0 t1 d).map Prod.fst).Sorted (· < ·))
    (hS : ∀ t0 t1 d, ((O.findSettings t0 t1 d).map Prod.fst).Sorted (· < ·)) :
    (∀ l1 l2 : List ℤ, l1.Sorted (· ≤ ·) → l2.Sorted (· ≤ ·) →
       (mergeSortedDatetimes l1 l2).Sorted (· ≤ ·)) ∧
    (∀ l1 l2 : List ℤ, l1.Sorted (· < ·) → l2.Sorted (· < ·) →
       (∀ x, x ∈ l1 → x ∉ l2) →
       (mergeSortedDatetimes l1 l2).Sorted (· < ·)) ∧
    (∀ qs : List Query,
       CachesSorted (runQueries O (Orb.initState name) qs)) := by
  refine ⟨fun l1 l2 => merge_sorted l1 l2,
    fun l1 l2 => merge_sorted_strict l1 l2, fun qs => ?_⟩
  have wk : ∀ l : List ℤ, l.Sorted (· < ·) → l.Sorted (· ≤ ·) :=
    fun l h => h.imp le_of_lt
  refine runQueries_sorted O (fun t0 t1 => wk _ (hT t0 t1))
    (fun t0 t1 => wk _ (hA t0 t1)) (fun t0 t1 d => wk _ (hR t0 t1 d))
    (fun t0 t1 d => wk _ (hS t0 t1 d)) qs (Orb.initState name) ?_
  exact ⟨List.sorted_nil, List.sorted_nil,
    fun d l hl => by simp [Orb.initState] at hl,
    fun d l hl => by simp [Orb.initState] at hl⟩

/-- Witness for the amended C1: the merge of `[1, 3]` and `[2]` is ordered,
disjoint strict inputs stay strict, and the cache store reached by one
`noon_cached` query against the singleton-reply oracle is sorted. -/
theorem C1_cache_order_witness :
    (mergeSortedDatetimes [1, 3] [2]).Sorted (· ≤ ·) ∧
    (mergeSortedDatetimes [1, 3] [2]).Sorted (· < ·) ∧
    CachesSorted (runQueries dupOracle (Orb.initState "sun")
      [Query.noonQ 0 10]) := by
  have h := C1_cache_order dupOracle "sun"
    (fun t0 t1 => by simp [dupOracle])
    (fun t0 t1 => by simp [dupOracle])
    (fun t0 t1 d => by simp [dupOracle])
    (fun t0 t1 d => by simp [dupOracle])
  exact ⟨h.1 [1, 3] [2] (by decide) (by decide),
    h.2.1 [1, 3] [2] (by decide) (by decide) (by decide),
    h.2.2 [Query.noonQ 0 10]⟩


theorem yearFetch_eq (t0 t1 : ℤ) :
    yearOracle.findTransits t0 t1 =
      (List.range 365).map (fun (i : ℕ) => t0 + 1440 * ((i : ℤ) + 1)) := rfl

theorem yearFetch_length (t0 t1 : ℤ) :
    (yearOracle.findTransits t0 t1).length = 365 := by
  rw [yearFetch_eq, List.length_map, List.length_range]

theorem yearFetch_sorted (t0 t1 : ℤ) :
    (yearOracle.findTransits t0 t1).Sorted (· < ·) := by
  rw [yearFetch_eq]
  exact (List.pairwise_lt_range 365).map _ (fun a b h => by omega)

theorem yearFetch_mem (t0 t1 x : ℤ) (hx : x ∈ yearOracle.findTransits t0 t1) :
    t0 + 1440 ≤ x ∧ x ≤ t0 + 525600 := by
  rw [yearFetch_eq, List.mem_map] at hx
  obtain ⟨i, hi, rfl⟩ := hx
  rw [List.mem_range] at hi
  omega

theorem yearFetch_ne_nil (t0 t1 : ℤ) : yearOracle.findTransits t0 t1 ≠ [] := by
  intro h
  have := yearFetch_length t0 t1
  rw [h] at this
  simp at this

theorem noonLookupList_length_le (O : Oracle) (s : OrbState) (t : ℤ) :
    (noonLookupList O s t).length ≤ s.maxCacheSize := by
  simp only [noonLookupList]
  split_ifs <;> first | simp | omega

theorem riseEntryList_length_le (O : Oracle) (s : OrbState) (d : ℚ) (t : ℤ) :
    (riseEntryList O s d t).length ≤ s.maxCacheSize := by
  simp only [riseEntryList]
  split_ifs <;> (simp only [List.length_map, List.length_nil] at * ; omega)

theorem findNext_nil (t : ℤ) : findNextDatetime [] t = none := rfl

theorem noonLookupList_of_kept (O : Oracle) (s : OrbState) (t : ℤ)
    (hne : s.noonCache ≠ []) (hlen : ¬ s.noonCache.length > s.maxCacheSize) :
    noonLookupList O s t = s.noonCache := by
  simp only [noonLookupList]
  split_ifs with h1 h2 <;> simp_all [List.isEmpty_iff]

theorem noonCached_missStep (O : Oracle) (s : OrbState) (m t : ℤ)
    (hne : s.noonCache ≠ []) (hlen : ¬ s.noonCache.length > s.maxCacheSize)
    (hall : ∀ y ∈ s.noonCache, y ≤ t) :
    (Orb.noonCached O s m t).2.noonCache =
      mergeSortedDatetimes s.noonCache
        (O.findTransits t (t + 1440 * (s.cachePrefillHorizon : ℤ))) := by
  have hLL := noonLookupList_of_kept O s t hne hlen
  have hfn : findNextDatetime (noonLookupList O s t) t = none := by
    rw [hLL]
    exact findNext_none_of_all_le _ _ hall
  have h := ((noonCached_char O s m t).2 hfn).1
  rwa [hLL] at h

theorem runQueries_append (O : Oracle) (s : OrbState) (qs : List Query)
    (q : Query) :
    runQueries O s (qs ++ [q]) = runQuery O (runQueries O s qs) q := by
  simp [runQueries, List.foldl_append]

theorem noonLookupList_of_empty (O : Oracle) (s : OrbState) (t : ℤ)
    (he : s.noonCache = [])
    (hlen : ¬ (O.findTransits t
        (t + 1440 * (s.cachePrefillHorizon : ℤ))).length > s.maxCacheSize) :
    noonLookupList O s t =
      O.findTransits t (t + 1440 * (s.cachePrefillHorizon : ℤ)) := by
  simp only [noonLookupList]
  split_ifs with h1 h2 <;> simp_all [List.isEmpty_iff]

theorem overflowRun : ∀ n : ℕ, 1 ≤ n → n ≤ 6 →
    (overflowRunState n).noonCache.length = 365 * n ∧
    (∀ y ∈ (overflowRunState n).noonCache,
      1440 ≤ y ∧ y ≤ 525600 * (n : ℤ)) ∧
    (overflowRunState n).maxCacheSize = 2000 ∧
    (overflowRunState n).cachePrefillHorizon = 365 := by
  intro n
  induction n with
  | zero => intro h1 _; exact absurd h1 (by omega)
  | succ k ih =>
    intro _ h6
    have hstep : overflowRunState (k + 1) =
        (Orb.noonCached yearOracle (overflowRunState k) 0
          (525600 * (k : ℤ))).2 := by
      unfold overflowRunState
      rw [List.range_succ, List.map_append]
      simp only [List.map_cons, List.map_nil]
      rw [runQueries_append]
      rfl
    by_cases hk : k = 0
    · subst hk
      have he : (overflowRunState 0).noonCache = [] := rfl
      have hhz : ((overflowRunState 0).cachePrefillHorizon : ℤ) = 365 := rfl
      have hlen : ¬ (yearOracle.findTransits 0
          (0 + 1440 * ((overflowRunState 0).cachePrefillHorizon : ℤ))).length >
          (overflowRunState 0).maxCacheSize := by
        rw [yearFetch_length]
        decide
      have hLL := noonLookupList_of_empty yearOracle (overflowRunState 0) 0
        he hlen
      have hsorted : (yearOracle.findTransits 0
          (0 + 1440 * ((overflowRunState 0).cachePrefillHorizon : ℤ))).Sorted
            (· ≤ ·) :=
        (yearFetch_sorted _ _).imp le_of_lt
      have hmem1440 : (1440 : ℤ) ∈ yearOracle.findTransits 0
          (0 + 1440 * ((overflowRunState 0).cachePrefillHorizon : ℤ)) := by
        rw [yearFetch_eq, List.mem_map]
        exact ⟨0, by simp, by norm_num⟩
      have hfn : findNextDatetime (noonLookupList yearOracle
          (overflowRunState 0) 0) 0 = some 1440 := by
        rw [hLL]
        rw [findNext_some_iff _ _ _ hsorted]
        refine ⟨hmem1440, by norm_num, fun y hy _ => (yearFetch_mem _ _ y hy).1.trans_eq' (by norm_num)⟩
      have hpost := ((noonCached_char yearOracle (overflowRunState 0) 0
        (525600 * ((0 : ℕ) : ℤ))).1 1440 (by
          rwa [show (525600 * ((0 : ℕ) : ℤ)) = 0 by norm_num])).2
      have hpres := noonCached_preserves yearOracle (overflowRunState 0) 0
        (525600 * ((0 : ℕ) : ℤ))
      rw [hstep]
      rw [show (525600 * ((0 : ℕ) : ℤ)) = 0 by norm_num] at hpost hpres ⊢
      rw [hpost, hLL]
      refine ⟨by rw [yearFetch_length], fun y hy => ?_, hpres.2.1, hpres.2.2.1⟩
      have := yearFetch_mem _ _ y hy
      push_cast
      omega
    · have hk1 : 1 ≤ k := by omega
      have ihk := ih hk1 (by omega)
      obtain ⟨hlenk, hmemk, hmaxk, hhzk⟩ := ihk
      have hne : (overflowRunState k).noonCache ≠ [] := by
        intro h
        rw [h] at hlenk
        simp at hlenk
        omega
      have hnotover : ¬ (overflowRunState k).noonCache.length >
          (overflowRunState k).maxCacheSize := by
        rw [hlenk, hmaxk]
        omega
      have hall : ∀ y ∈ (overflowRunState k).noonCache,
          y ≤ 525600 * (k : ℤ) := fun y hy => (hmemk y hy).2
      have hmiss := noonCached_missStep yearOracle (overflowRunState k) 0
        (525600 * (k : ℤ)) hne hnotover hall
      have hpres := noonCached_preserves yearOracle (overflowRunState k) 0
        (525600 * (k : ℤ))
      rw [hstep, hmiss]
      refine ⟨?_, fun y hy => ?_, hpres.2.1.trans hmaxk,
        hpres.2.2.1.trans hhzk⟩
      · rw [merge_length, hlenk, yearFetch_length]
        ring
      · rw [merge_mem] at hy
        rcases hy with hy | hy
        · have := hmemk y hy
          push_cast
          push_cast at this
          omega
        · have := yearFetch_mem _ _ y hy
          push_cast
          omega

/-- C2 counterexample: with an oracle answering every fetch with 365
strictly increasing in-window daily transits, six `noon_cached` queries one
year apart on a fresh Orb (`max_cache_size = 2000`) leave `noon_cache`
holding 2190 timestamps: each query after the first misses and the merge
grows the entry past the bound, because the overflow check runs only at the
start of the next query, not after the merge. -/
theorem C2_cache_bound_counterexample :
    (∀ t0 t1 : ℤ, (yearOracle.findTransits t0 t1).Sorted (· < ·)) ∧
    (∀ t0 t1 x : ℤ, x ∈ yearOracle.findTransits t0 t1 →
      t0 ≤ x ∧ x ≤ t0 + 525600) ∧
    (Orb.initState "sun").maxCacheSize = 2000 ∧
    (runQueries yearOracle (Orb.initState "sun")
      overflowQueries).maxCacheSize = 2000 ∧
    2000 < (runQueries yearOracle (Orb.initState "sun")
      overflowQueries).noonCache.length := by
  have h := overflowRun 6 (by norm_num) le_rfl
  have heq : runQueries yearOracle (Orb.initState "sun") overflowQueries =
      overflowRunState 6 := rfl
  refine ⟨yearFetch_sorted, ?_, rfl, ?_, ?_⟩
  · intro t0 t1 x hx
    have := yearFetch_mem t0 t1 x hx
    omega
  · rw [heq]
    exact h.2.2.1
  · rw [heq, h.1]
    norm_num

/-- C2 (amended): when a cached query finds its entry longer than
`max_cache_size` at the start, it resets the entry to empty and repopulates
it with exactly the result of one fresh Oracle fetch before returning; the
length bound is enforced at the lookup point (the list looked up never
exceeds `max_cache_size`), and after a completed query the entry's length
is at most `max_cache_size` plus the size of one fetched series — but not
necessarily at most `max_cache_size` itself, since a merge on a miss can
push the entry past the bound until the next query on that key clears it
(stated for `noon_cached` and `rise_cached`; `midnight_cached` and
`set_cached` are verbatim analogues). -/
theorem C2_cache_bound (O : Oracle) (s : OrbState) (d : ℚ) (m t : ℤ) :
    (s.noonCache ≠ [] → s.noonCache.length > s.maxCacheSize →
      (Orb.noonCached O s m t).2.noonCache =
        O.findTransits t (t + 1440 * (s.cachePrefillHorizon : ℤ))) ∧
    (∀ E, s.riseCache d = some E → E.length > s.maxCacheSize →
      (Orb.riseCached O s d m t).2.riseCache d =
        some ((O.findRisings t (t + 1440 * (s.cachePrefillHorizon : ℤ))
          d).map Prod.fst)) ∧
    ((noonLookupList O s t).length ≤ s.maxCacheSize ∧
     (riseEntryList O s d t).length ≤ s.maxCacheSize) ∧
    ((Orb.noonCached O s m t).2.noonCache.length ≤ s.maxCacheSize +
      (O.findTransits t (t + 1440 * (s.cachePrefillHorizon : ℤ))).length) ∧
    (∀ l, (Orb.riseCached O s d m t).2.riseCache d = some l →
      l.length ≤ s.maxCacheSize +
        ((O.findRisings t (t + 1440 * (s.cachePrefillHorizon : ℤ))
          d).map Prod.fst).length) := by
  refine ⟨?_, ?_, ⟨noonLookupList_length_le O s t,
    riseEntryList_length_le O s d t⟩, ?_, ?_⟩
  · intro hne hlen
    have hLL : noonLookupList O s t = [] := by
      simp only [noonLookupList]
      split_ifs with h1 h2 <;> simp_all [List.isEmpty_iff]
    have hfn : findNextDatetime (noonLookupList O s t) t = none := by
      rw [hLL]; rfl
    have h := ((noonCached_char O s m t).2 hfn).1
    rwa [hLL, merge_nil_left] at h
  · intro E hE hlen
    have hLL : riseEntryList O s d t = [] := by
      simp only [riseEntryList]
      rw [hE]
      simp only [Option.isNone_some, Bool.false_eq_true, if_false, ite_false,
        Option.getD_some]
      rw [if_pos hlen]
    have hfn : findNextDatetime (riseEntryList O s d t) t = none := by
      rw [hLL]; rfl
    have h := ((riseCached_char O s d m t).2 hfn).1
    rwa [hLL, merge_nil_left] at h
  · cases hfn : findNextDatetime (noonLookupList O s t) t with
    | some v =>
      rw [((noonCached_char O s m t).1 v hfn).2]
      exact (noonLookupList_length_le O s t).trans (Nat.le_add_right _ _)
    | none =>
      rw [((noonCached_char O s m t).2 hfn).1, merge_length]
      exact Nat.add_le_add_right (noonLookupList_length_le O s t) _
  · intro l hl
    cases hfn : findNextDatetime (riseEntryList O s d t) t with
    | some v =>
      rw [((riseCached_char O s d m t).1 v hfn).2] at hl
      obtain rfl := Option.some_injective _ hl.symm
      exact (riseEntryList_length_le O s d t).trans (Nat.le_add_right _ _)
    | none =>
      rw [((riseCached_char O s d m t).2 hfn).1] at hl
      obtain rfl := Option.some_injective _ hl.symm
      rw [merge_length]
      exact Nat.add_le_add_right (riseEntryList_length_le O s d t) _

/-- Witness for the amended C2 on a concrete overflowing state: the noon
entry `[-3, -2]` with bound 1 is reset and repopulated with the single
fetched transit `[7]`, and likewise the rise entry becomes the single
fetched rising `[9]`. -/
theorem C2_cache_bound_witness :
    (Orb.noonCached uncachedDemoOracle overflowState 0 0).2.noonCache =
      [7] ∧
    (Orb.riseCached uncachedDemoOracle overflowState 0 0 0).2.riseCache 0 =
      some [9] ∧
    (Orb.noonCached uncachedDemoOracle overflowState 0 0).2.noonCache.length ≤
      overflowState.maxCacheSize + 1 := by
  have h := C2_cache_bound uncachedDemoOracle overflowState 0 0 0
  have h1 := h.1 (by decide) (by decide)
  have h2 := h.2.1 [-5, -4] rfl (by decide)
  refine ⟨h1.trans rfl, h2.trans rfl, ?_⟩
  have h3 := h.2.2.2.1
  exact h3.trans_eq rfl

theorem riseEntryList_of_kept (O : Oracle) (s : OrbState) (d : ℚ) (t : ℤ)
    (E : List ℤ) (hE : s.riseCache d = some E)
    (hlen : ¬ E.length > s.maxCacheSize) :
    riseEntryList O s d t = E := by
  simp only [riseEntryList, hE, Option.isNone_some, Bool.false_eq_true,
    if_false, ite_false, Option.getD_some]
  rw [if_neg hlen]

/-- C7 counterexample: the claim's precondition does not exclude an
overflowing entry, and on such an entry the query does not merge into the
existing series — the stale rise entry `[-5, -4]` (every element ≤ the
query time 0, oracle reply `[9]` inside the window) is discarded by the
reset, leaving `[9]` instead of the merge `[-5, -4, 9]`. -/
theorem C7_extension_counterexample :
    staleOverflowState.riseCache 0 = some [-5, -4] ∧
    (∀ y : ℤ, y ∈ [(-5 : ℤ), -4] → y ≤ 0) ∧
    (∀ p ∈ uncachedDemoOracle.findRisings 0
        (0 + 1440 * ((staleOverflowState.cachePrefillHorizon : ℕ) : ℤ)) 0,
      (0 : ℤ) ≤ p.1 ∧
        p.1 ≤ 0 + 1440 * ((staleOverflowState.cachePrefillHorizon : ℕ) : ℤ)) ∧
    (Orb.riseCached uncachedDemoOracle staleOverflowState 0 0 0).2.riseCache 0 =
      some [9] ∧
    mergeSortedDatetimes [-5, -4] [9] = [-5, -4, 9] ∧
    some [(9 : ℤ)] ≠ some [(-5 : ℤ), -4, 9] := by
  refine ⟨rfl, by decide, ?_, by rfl, by rfl, by decide⟩
  intro p hp
  simp only [uncachedDemoOracle, List.mem_singleton] at hp
  subst hp
  norm_num [staleOverflowState]

/-- C7 (amended): add to the precondition that the entry's length does not
exceed `max_cache_size` (an overflowing entry is reset, not merged).  Then
a cached query whose entry contains no timestamp after the query time
fetches `[after, after + horizon]`, merges the fetched series into the
existing entry, and returns the first fetched timestamp (which is ≥ after)
shifted by the minute offset; it fails with the no-event error exactly when
the fetched series is empty (stated for `rise_cached` and `noon_cached`;
`set_cached` and `midnight_cached` are verbatim analogues). -/
theorem C7_cached_extension (O : Oracle) (s : OrbState) (d : ℚ) (m t : ℤ)
    (hwinR : ∀ p ∈ O.findRisings t
        (t + 1440 * (s.cachePrefillHorizon : ℤ)) d,
      t ≤ p.1 ∧ p.1 ≤ t + 1440 * (s.cachePrefillHorizon : ℤ))
    (hwinT : ∀ x ∈ O.findTransits t (t + 1440 * (s.cachePrefillHorizon : ℤ)),
      t ≤ x ∧ x ≤ t + 1440 * (s.cachePrefillHorizon : ℤ)) :
    (∀ E, s.riseCache d = some E → (∀ y ∈ E, y ≤ t) →
      E.length ≤ s.maxCacheSize →
      (Orb.riseCached O s d m t).2.riseCache d =
        some (mergeSortedDatetimes E
          ((O.findRisings t (t + 1440 * (s.cachePrefillHorizon : ℤ)) d).map
            Prod.fst)) ∧
      (O.findRisings t (t + 1440 * (s.cachePrefillHorizon : ℤ)) d = [] →
        (Orb.riseCached O s d m t).1 = .error "No rise found.") ∧
      (∀ p ps, O.findRisings t (t + 1440 * (s.cachePrefillHorizon : ℤ)) d =
          p :: ps →
        (Orb.riseCached O s d m t).1 = .ok (p.1 + m) ∧ t ≤ p.1)) ∧
    (s.noonCache ≠ [] → (∀ y ∈ s.noonCache, y ≤ t) →
      s.noonCache.length ≤ s.maxCacheSize →
      (Orb.noonCached O s m t).2.noonCache =
        mergeSortedDatetimes s.noonCache
          (O.findTransits t (t + 1440 * (s.cachePrefillHorizon : ℤ))) ∧
      (O.findTransits t (t + 1440 * (s.cachePrefillHorizon : ℤ)) = [] →
        (Orb.noonCached O s m t).1 = .error "No transit found.") ∧
      (∀ x xs, O.findTransits t (t + 1440 * (s.cachePrefillHorizon : ℤ)) =
          x :: xs →
        (Orb.noonCached O s m t).1 = .ok (x + m) ∧ t ≤ x)) := by
  constructor
  · intro E hE hstale hlen
    have hkept := riseEntryList_of_kept O s d t E hE (by omega)
    have hfn : findNextDatetime (riseEntryList O s d t) t = none := by
      rw [hkept]
      exact findNext_none_of_all_le E t hstale
    have hchar := (riseCached_char O s d m t).2 hfn
    refine ⟨by rw [hchar.1, hkept], fun hnil => ?_, fun p ps hcons => ?_⟩
    · exact hchar.2.1 (by rw [hnil]; rfl)
    · refine ⟨hchar.2.2 p.1 (ps.map Prod.fst) (by rw [hcons]; rfl), ?_⟩
      exact (hwinR p (by rw [hcons]; exact List.mem_cons_self p ps)).1
  · intro hne hstale hlen
    have hkept := noonLookupList_of_kept O s t hne (by omega)
    have hfn : findNextDatetime (noonLookupList O s t) t = none := by
      rw [hkept]
      exact findNext_none_of_all_le _ t hstale
    have hchar := (noonCached_char O s m t).2 hfn
    refine ⟨by rw [hchar.1, hkept], fun hnil => hchar.2.1 hnil,
      fun x xs hcons => ?_⟩
    refine ⟨hchar.2.2 x xs hcons, ?_⟩
    exact (hwinT x (by rw [hcons]; exact List.mem_cons_self x xs)).1

/-- Witness for the amended C7: on the stale in-bound state, the rise query
merges the fetched `[9]` into `[-5, -4]` and returns `9 + 3`, and the noon
query merges the fetched `[7]` into `[-7, -6]` and returns `7`. -/
theorem C7_cached_extension_witness :
    (Orb.riseCached uncachedDemoOracle staleKeptState 0 3 0).2.riseCache 0 =
      some [-5, -4, 9] ∧
    (Orb.riseCached uncachedDemoOracle staleKeptState 0 3 0).1 = .ok 12 ∧
    (Orb.noonCached uncachedDemoOracle staleKeptState 3 0).2.noonCache =
      [-7, -6, 7] ∧
    (Orb.noonCached uncachedDemoOracle staleKeptState 3 0).1 = .ok 10 := by
  have h := C7_cached_extension uncachedDemoOracle staleKeptState 0 3 0
    (by intro p hp
        simp only [uncachedDemoOracle, List.mem_singleton] at hp
        subst hp
        norm_num [staleKeptState])
    (by intro x hx
        simp only [uncachedDemoOracle, List.mem_singleton] at hx
        subst hx
        norm_num [staleKeptState])
  have hR := h.1 [-5, -4] rfl (by decide) (by decide)
  have hN := h.2 (by decide) (by decide) (by decide)
  exact ⟨hR.1.trans (by rfl), (hR.2.2 (9, true) [] rfl).1.trans (by rfl),
    hN.1.trans (by rfl), (hN.2.2 7 [] rfl).1.trans (by rfl)⟩

theorem setEntryList_of_kept (O : Oracle) (s : OrbState) (d : ℚ) (t : ℤ)
    (E : List ℤ) (hE : s.setCache d = some E)
    (hlen : ¬ E.length > s.maxCacheSize) :
    setEntryList O s d t = E := by
  simp only [setEntryList, hE, Option.isNone_some, Bool.false_eq_true,
    if_false, ite_false, Option.getD_some]
  rw [if_neg hlen]

theorem midnightLookupList_of_kept (O : Oracle) (s : OrbState) (t : ℤ)
    (hne : s.midnightCache ≠ [])
    (hlen : ¬ s.midnightCache.length > s.maxCacheSize) :
    midnightLookupList O s t = s.midnightCache := by
  simp only [midnightLookupList]
  split_ifs with h1 h2 <;> simp_all [List.isEmpty_iff]

theorem findNext_exists_of_gt (l : List ℤ) (t : ℤ) (hs : l.Sorted (· ≤ ·))
    (hex : ∃ x ∈ l, t < x) : ∃ v, findNextDatetime l t = some v := by
  cases h : findNextDatetime l t with
  | none =>
    rw [findNext_none_iff l t hs] at h
    obtain ⟨x, hx, htx⟩ := hex
    exact absurd (h x hx) (not_le_of_lt htx)
  | some v => exact ⟨v, rfl⟩

/-- C10: a cached query touches only its own cache entry — `rise_cached(d)`
leaves every `rise_cache[d']` with `d' ≠ d`, the whole set cache, the noon
cache and the midnight cache unchanged, and symmetrically for the other
three cached operations; moreover, when the queried entry already holds a
timestamp strictly after the query time (entries arising in operation are
sorted) and its length does not exceed `max_cache_size`, the query is a
pure hit and the entire cache store is left unchanged. -/
theorem C10_cache_frame (O : Oracle) (s : OrbState) (d : ℚ) (m t : ℤ) :
    ((∀ d', d' ≠ d →
        (Orb.riseCached O s d m t).2.riseCache d' = s.riseCache d') ∧
     (Orb.riseCached O s d m t).2.setCache = s.setCache ∧
     (Orb.riseCached O s d m t).2.noonCache = s.noonCache ∧
     (Orb.riseCached O s d m t).2.midnightCache = s.midnightCache) ∧
    ((∀ d', d' ≠ d →
        (Orb.setCached O s d m t).2.setCache d' = s.setCache d') ∧
     (Orb.setCached O s d m t).2.riseCache = s.riseCache ∧
     (Orb.setCached O s d m t).2.noonCache = s.noonCache ∧
     (Orb.setCached O s d m t).2.midnightCache = s.midnightCache) ∧
    ((Orb.noonCached O s m t).2.riseCache = s.riseCache ∧
     (Orb.noonCached O s m t).2.setCache = s.setCache ∧
     (Orb.noonCached O s m t).2.midnightCache = s.midnightCache) ∧
    ((Orb.midnightCached O s m t).2.riseCache = s.riseCache ∧
     (Orb.midnightCached O s m t).2.setCache = s.setCache ∧
     (Orb.midnightCached O s m t).2.noonCache = s.noonCache) ∧
    (∀ E, s.riseCache d = some E → E.Sorted (· ≤ ·) → (∃ x ∈ E, t < x) →
      E.length ≤ s.maxCacheSize →
      (∀ d'', (Orb.riseCached O s d m t).2.riseCache d'' = s.riseCache d'') ∧
      (Orb.riseCached O s d m t).2.setCache = s.setCache ∧
      (Orb.riseCached O s d m t).2.noonCache = s.noonCache ∧
      (Orb.riseCached O s d m t).2.midnightCache = s.midnightCache) ∧
    (∀ E, s.setCache d = some E → E.Sorted (· ≤ ·) → (∃ x ∈ E, t < x) →
      E.length ≤ s.maxCacheSize →
      (∀ d'', (Orb.setCached O s d m t).2.setCache d'' = s.setCache d'')) ∧
    (s.noonCache.Sorted (· ≤ ·) → (∃ x ∈ s.noonCache, t < x) →
      s.noonCache.length ≤ s.maxCacheSize →
      (Orb.noonCached O s m t).2.noonCache = s.noonCache) ∧
    (s.midnightCache.Sorted (· ≤ ·) → (∃ x ∈ s.midnightCache, t < x) →
      s.midnightCache.length ≤ s.maxCacheSize →
      (Orb.midnightCached O s m t).2.midnightCache = s.midnightCache) := by
  have hrp := riseCached_preserves O s d m t
  have hsp := setCached_preserves O s d m t
  have hnp := noonCached_preserves O s m t
  have hmp := midnightCached_preserves O s m t
  refine ⟨⟨riseCached_frame O s d m t, hrp.2.2.2.2.2.1, hrp.2.2.2.1,
      hrp.2.2.2.2.1⟩,
    ⟨setCached_frame O s d m t, hsp.2.2.2.2.2.1, hsp.2.2.2.1,
      hsp.2.2.2.2.1⟩,
    ⟨hnp.2.2.2.1, hnp.2.2.2.2.1, hnp.2.2.2.2.2.1⟩,
    ⟨hmp.2.2.2.1, hmp.2.2.2.2.1, hmp.2.2.2.2.2.1⟩, ?_, ?_, ?_, ?_⟩
  · intro E hE hsort hex hlen
    have hkept := riseEntryList_of_kept O s d t E hE (by omega)
    obtain ⟨v, hv⟩ := findNext_exists_of_gt E t hsort hex
    have hhit := ((riseCached_char O s d m t).1 v (by rwa [hkept])).2
    rw [hkept] at hhit
    refine ⟨fun d'' => ?_, hrp.2.2.2.2.2.1, hrp.2.2.2.1, hrp.2.2.2.2.1⟩
    by_cases hd : d'' = d
    · subst hd
      rw [hhit, hE]
    · exact riseCached_frame O s d m t d'' hd
  · intro E hE hsort hex hlen
    have hkept := setEntryList_of_kept O s d t E hE (by omega)
    obtain ⟨v, hv⟩ := findNext_exists_of_gt E t hsort hex
    have hhit := ((setCached_char O s d m t).1 v (by rwa [hkept])).2
    rw [hkept] at hhit
    intro d''
    by_cases hd : d'' = d
    · subst hd
      rw [hhit, hE]
    · exact setCached_frame O s d m t d'' hd
  · intro hsort hex hlen
    have hne : s.noonCache ≠ [] := by
      obtain ⟨x, hx, _⟩ := hex
      exact List.ne_nil_of_mem hx
    have hkept := noonLookupList_of_kept O s t hne (by omega)
    obtain ⟨v, hv⟩ := findNext_exists_of_gt s.noonCache t hsort hex
    have hhit := ((noonCached_char O s m t).1 v (by rwa [hkept])).2
    rw [hkept] at hhit
    exact hhit
  · intro hsort hex hlen
    have hne : s.midnightCache ≠ [] := by
      obtain ⟨x, hx, _⟩ := hex
      exact List.ne_nil_of_mem hx
    have hkept := midnightLookupList_of_kept O s t hne (by omega)
    obtain ⟨v, hv⟩ := findNext_exists_of_gt s.midnightCache t hsort hex
    have hhit := ((midnightCached_char O s m t).1 v (by rwa [hkept])).2
    rw [hkept] at hhit
    exact hhit

/-- Witness for C10 at time 0 on a state with live entries: the rise query
for offset 0 changes nothing (its own entry included), and the noon-cache
is untouched by the rise query. -/
theorem C10_cache_frame_witness :
    (Orb.riseCached uncachedDemoOracle liveState 0 0 0).2.riseCache 0 =
      liveState.riseCache 0 ∧
    (Orb.riseCached uncachedDemoOracle liveState 0 0 0).2.riseCache 7 =
      liveState.riseCache 7 ∧
    (Orb.riseCached uncachedDemoOracle liveState 0 0 0).2.noonCache =
      liveState.noonCache ∧
    (Orb.noonCached uncachedDemoOracle liveState 0 0).2.noonCache =
      liveState.noonCache := by
  have h := C10_cache_frame uncachedDemoOracle liveState 0 0 0
  have hhit := h.2.2.2.2.1 [5, 8] rfl (by decide)
    ⟨5, by decide, by decide⟩ (by decide)
  exact ⟨hhit.1 0, hhit.1 7, hhit.2.2.1,
    h.2.2.2.2.2.2.1 (by decide) ⟨4, by decide, by decide⟩ (by decide)⟩

theorem noonLookupList_of_overflow (O : Oracle) (s : OrbState) (t : ℤ)
    (hne : s.noonCache ≠ []) (hov : s.noonCache.length > s.maxCacheSize) :
    noonLookupList O s t = [] := by
  simp only [noonLookupList]
  split_ifs with h1 h2 <;> simp_all [List.isEmpty_iff]

theorem noonLookupList_sorted_of (O : Oracle) (s : OrbState) (t : ℤ)
    (hc : s.noonCache.Sorted (· ≤ ·))
    (hf : (O.findTransits t
      (t + 1440 * (s.cachePrefillHorizon : ℤ))).Sorted (· ≤ ·)) :
    (noonLookupList O s t).Sorted (· ≤ ·) := by
  simp only [noonLookupList]
  split_ifs <;> first | exact List.sorted_nil | exact hf | exact hc

/-- C9: monotonicity of cached queries — for the noon cache key on one Orb
instance with a fixed minute offset, if the entry is sorted and the oracle
reports, for each of the two query windows, a sorted series lying inside
the window, consistently (any reported timestamp belonging to the other
window is reported there too), then two successive successful calls at
a1 < a2 on the evolving cache state return r1 ≤ r2. -/
theorem C9_cached_monotone (O : Oracle) (s : OrbState)
    (moff a1 a2 r1 r2 : ℤ) (s1 s2 : OrbState)
    (hs : s.noonCache.Sorted (· ≤ ·))
    (h12 : a1 < a2)
    (hsF1 : (O.findTransits a1
      (a1 + 1440 * (s.cachePrefillHorizon : ℤ))).Sorted (· ≤ ·))
    (hw1 : ∀ x ∈ O.findTransits a1 (a1 + 1440 * (s.cachePrefillHorizon : ℤ)),
      a1 ≤ x ∧ x ≤ a1 + 1440 * (s.cachePrefillHorizon : ℤ))
    (hw2 : ∀ x ∈ O.findTransits a2 (a2 + 1440 * (s.cachePrefillHorizon : ℤ)),
      a2 ≤ x ∧ x ≤ a2 + 1440 * (s.cachePrefillHorizon : ℤ))
    (hcons : ∀ x ∈ O.findTransits a2 (a2 + 1440 * (s.cachePrefillHorizon : ℤ)),
      a1 ≤ x → x ≤ a1 + 1440 * (s.cachePrefillHorizon : ℤ) →
      x ∈ O.findTransits a1 (a1 + 1440 * (s.cachePrefillHorizon : ℤ)))
    (e1 : Orb.noonCached O s moff a1 = (.ok r1, s1))
    (e2 : Orb.noonCached O s1 moff a2 = (.ok r2, s2)) :
    r1 ≤ r2 := by
  have e1f : (Orb.noonCached O s moff a1).1 = .ok r1 := by rw [e1]
  have e1s : (Orb.noonCached O s moff a1).2 = s1 := by rw [e1]
  have e2f : (Orb.noonCached O s1 moff a2).1 = .ok r2 := by rw [e2]
  have hpres := noonCached_preserves O s moff a1
  have hhz : s1.cachePrefillHorizon = s.cachePrefillHorizon := by
    rw [← e1s]; exact hpres.2.2.1
  have hmax : s1.maxCacheSize = s.maxCacheSize := by
    rw [← e1s]; exact hpres.2.1
  cases hfn1 : findNextDatetime (noonLookupList O s a1) a1 with
  | some v1 =>
    have hchar1 := (noonCached_char O s moff a1).1 v1 hfn1
    have hr1 : r1 = v1 + moff := Except.ok.inj (e1f.symm.trans hchar1.1)
    have hs1c : s1.noonCache = noonLookupList O s a1 := by
      rw [← e1s]; exact hchar1.2
    have hL1sorted := noonLookupList_sorted_of O s a1 hs hsF1
    have hv1 := findNext_some_spec _ _ _ hL1sorted hfn1
    have hs1sorted : s1.noonCache.Sorted (· ≤ ·) := by
      rw [hs1c]; exact hL1sorted
    have hs1ne : s1.noonCache ≠ [] := by
      rw [hs1c]; exact List.ne_nil_of_mem hv1.1
    have hs1len : ¬ s1.noonCache.length > s1.maxCacheSize := by
      have := noonLookupList_length_le O s a1
      rw [hs1c, hmax]
      omega
    have hL2 : noonLookupList O s1 a2 = s1.noonCache :=
      noonLookupList_of_kept O s1 a2 hs1ne hs1len
    cases hfn2 : findNextDatetime (noonLookupList O s1 a2) a2 with
    | some v2 =>
      have hchar2 := (noonCached_char O s1 moff a2).1 v2 hfn2
      have hr2 : r2 = v2 + moff := Except.ok.inj (e2f.symm.trans hchar2.1)
      have hv2 := findNext_some_spec _ _ _ (hL2 ▸ hs1sorted) hfn2
      have hv2L1 : v2 ∈ noonLookupList O s a1 := by
        rw [← hs1c, ← hL2]; exact hv2.1
      have hle : v1 ≤ v2 := hv1.2.2 v2 hv2L1 (lt_trans h12 hv2.2.1)
      omega
    | none =>
      have hall2 : ∀ y ∈ s1.noonCache, y ≤ a2 := by
        have h := (findNext_none_iff _ a2 (hL2 ▸ hs1sorted)).mp hfn2
        intro y hy
        exact h y (by rwa [hL2])
      have hv1le : v1 ≤ a2 := hall2 v1 (by rw [hs1c]; exact hv1.1)
      have hchar2 := (noonCached_char O s1 moff a2).2 hfn2
      cases hF2 : O.findTransits a2
          (a2 + 1440 * (s1.cachePrefillHorizon : ℤ)) with
      | nil =>
        have h := hchar2.2.1 hF2
        rw [e2f] at h
        exact absurd h (by simp)
      | cons x2 xs2 =>
        have h := hchar2.2.2 x2 xs2 hF2
        rw [e2f] at h
        have hr2 : r2 = x2 + moff := Except.ok.inj h
        rw [hhz] at hF2
        have hx2 : x2 ∈ O.findTransits a2
            (a2 + 1440 * (s.cachePrefillHorizon : ℤ)) := by
          rw [hF2]; exact List.mem_cons_self _ _
        have := (hw2 x2 hx2).1
        omega
  | none =>
    have hchar1 := (noonCached_char O s moff a1).2 hfn1
    have hL1sorted := noonLookupList_sorted_of O s a1 hs hsF1
    have hallL1 : ∀ y ∈ noonLookupList O s a1, y ≤ a1 :=
      (findNext_none_iff _ _ hL1sorted).mp hfn1
    cases hF1 : O.findTransits a1
        (a1 + 1440 * (s.cachePrefillHorizon : ℤ)) with
    | nil =>
      have h := hchar1.2.1 hF1
      rw [e1f] at h
      exact absurd h (by simp)
    | cons x1 xs1 =>
      have h := hchar1.2.2 x1 xs1 hF1
      rw [e1f] at h
      have hr1 : r1 = x1 + moff := Except.ok.inj h
      have hs1c : s1.noonCache = mergeSortedDatetimes (noonLookupList O s a1)
          (O.findTransits a1 (a1 + 1440 * (s.cachePrefillHorizon : ℤ))) := by
        rw [← e1s]; exact hchar1.1
      have hx1mem : x1 ∈ O.findTransits a1
          (a1 + 1440 * (s.cachePrefillHorizon : ℤ)) := by
        rw [hF1]; exact List.mem_cons_self _ _
      have hx1min : ∀ y ∈ O.findTransits a1
          (a1 + 1440 * (s.cachePrefillHorizon : ℤ)), x1 ≤ y := by
        rw [hF1] at hsF1 ⊢
        intro y hy
        rcases List.mem_cons.mp hy with rfl | hy
        · exact le_rfl
        · exact (List.sorted_cons.mp hsF1).1 y hy
      have hx1w := hw1 x1 hx1mem
      have hs1sorted : s1.noonCache.Sorted (· ≤ ·) := by
        rw [hs1c]; exact merge_sorted _ _ hL1sorted hsF1
      have hx1merge : x1 ∈ s1.noonCache := by
        rw [hs1c, merge_mem]; exact Or.inr hx1mem
      have hs1ne : s1.noonCache ≠ [] := List.ne_nil_of_mem hx1merge
      by_cases hov : s1.noonCache.length > s1.maxCacheSize
      · have hL2 : noonLookupList O s1 a2 = [] :=
          noonLookupList_of_overflow O s1 a2 hs1ne hov
        have hfn2 : findNextDatetime (noonLookupList O s1 a2) a2 = none := by
          rw [hL2]; rfl
        have hchar2 := (noonCached_char O s1 moff a2).2 hfn2
        cases hF2 : O.findTransits a2
            (a2 + 1440 * (s1.cachePrefillHorizon : ℤ)) with
        | nil =>
          have h2 := hchar2.2.1 hF2
          rw [e2f] at h2
          exact absurd h2 (by simp)
        | cons x2 xs2 =>
          have h2 := hchar2.2.2 x2 xs2 hF2
          rw [e2f] at h2
          have hr2 : r2 = x2 + moff := Except.ok.inj h2
          rw [hhz] at hF2
          have hx2 : x2 ∈ O.findTransits a2
              (a2 + 1440 * (s.cachePrefillHorizon : ℤ)) := by
            rw [hF2]; exact List.mem_cons_self _ _
          have hx2w := hw2 x2 hx2
          by_contra hlt
          push_neg at hlt
          have hx2lt : x2 < x1 := by omega
          have hx2in1 : x2 ∈ O.findTransits a1
              (a1 + 1440 * (s.cachePrefillHorizon : ℤ)) :=
            hcons x2 hx2 (by omega) (by omega)
          have := hx1min x2 hx2in1
          omega
      · have hL2 : noonLookupList O s1 a2 = s1.noonCache :=
          noonLookupList_of_kept O s1 a2 hs1ne hov
        cases hfn2 : findNextDatetime (noonLookupList O s1 a2) a2 with
        | some v2 =>
          have hchar2 := (noonCached_char O s1 moff a2).1 v2 hfn2
          have hr2 : r2 = v2 + moff := Except.ok.inj (e2f.symm.trans hchar2.1)
          have hv2 := findNext_some_spec _ _ _ (hL2 ▸ hs1sorted) hfn2
          have hv2merge : v2 ∈ s1.noonCache := by
            rw [← hL2]; exact hv2.1
          rw [hs1c, merge_mem] at hv2merge
          rcases hv2merge with hv2L | hv2F
          · have := hallL1 v2 hv2L
            have := hv2.2.1
            omega
          · have := hx1min v2 hv2F
            omega
        | none =>
          have hall2 : ∀ y ∈ s1.noonCache, y ≤ a2 := by
            have h2 := (findNext_none_iff _ a2 (hL2 ▸ hs1sorted)).mp hfn2
            intro y hy
            exact h2 y (by rwa [hL2])
          have hx1le : x1 ≤ a2 := hall2 x1 hx1merge
          have hchar2 := (noonCached_char O s1 moff a2).2 hfn2
          cases hF2 : O.findTransits a2
              (a2 + 1440 * (s1.cachePrefillHorizon : ℤ)) with
          | nil =>
            have h2 := hchar2.2.1 hF2
            rw [e2f] at h2
            exact absurd h2 (by simp)
          | cons x2 xs2 =>
            have h2 := hchar2.2.2 x2 xs2 hF2
            rw [e2f] at h2
            have hr2 : r2 = x2 + moff := Except.ok.inj h2
            rw [hhz] at hF2
            have hx2 : x2 ∈ O.findTransits a2
                (a2 + 1440 * (s.cachePrefillHorizon : ℤ)) := by
              rw [hF2]; exact List.mem_cons_self _ _
            have := (hw2 x2 hx2).1
            omega


/-- Witness for C9: on a fresh zero-horizon instance with the
one-transit-per-instant oracle, the call at 10 returns 10 and the following
call at 12 returns 12. -/
theorem C9_cached_monotone_witness :
    Orb.noonCached monoOracle monoState 0 10 = (.ok 10, monoState1) ∧
    Orb.noonCached monoOracle monoState1 0 12 = (.ok 12, monoState2) ∧
    (10 : ℤ) ≤ 12 := by
  refine ⟨rfl, rfl, ?_⟩
  exact C9_cached_monotone monoOracle monoState 0 10 12 10 12 monoState1
    monoState2 (by decide) (by decide) (by decide) (by decide) (by decide)
    (by decide) rfl rfl
